import Mathlib

/-!
Verification development for the DiffShield documentation-review service.

The TypeScript sources are shallowly embedded: pure functions become Lean
functions, JavaScript numbers become `ℚ` (the numeric literals that matter
are exact decimals), JavaScript strings become `String`, absent/undefined
optional values become `Option`/defaulted fields, and the handful of host
builtins the code calls (the `unified` Markdown parser, `JSON.parse`, the
`crypto` md5 hash) are abstracted as parameters of the embedded functions.
All definitions are executable so that concrete runs of the code can be
checked by `decide`.
-/

namespace DocsMind

/-! ## JavaScript string primitives

Character-level models of the JavaScript string/regex operations used by the
sources.  Whitespace is the ASCII portion of the regex class `\s` plus NBSP;
the documents and review texts handled by the claims are ASCII.
-/

/-- The character `\x7b` (left curly brace). -/
def lbrace : Char := Char.ofNat 123

/-- The character `\x7d` (right curly brace). -/
def rbrace : Char := Char.ofNat 125

/-- The backtick character `\x60`. -/
def backtickChar : Char := Char.ofNat 96

/-- JavaScript regex-class `\s` membership (ASCII subset plus NBSP). -/
def jsIsSpace (c : Char) : Bool :=
  c = ' ' || c = '\t' || c = '\n' || c = '\x0d' || c = '\x0b' || c = '\x0c' || c = ' '

/-- JavaScript regex-class `\w` membership: `[A-Za-z0-9_]` (ASCII). -/
def isWordChar (c : Char) : Bool :=
  c.isAlpha || c.isDigit || c = '_'

/-- ASCII `String.prototype.toLowerCase`. -/
def jsToLower (s : String) : String :=
  String.mk (s.toList.map Char.toLower)

/-- Does `needle` occur as a prefix of `hay` (character lists)? -/
def listStartsWith [DecidableEq α] : List α → List α → Bool
  | [], _ => true
  | _ :: _, [] => false
  | a :: as, b :: bs => a = b && listStartsWith as bs

/-- Does `needle` occur as a contiguous sublist of `hay`?
Model of JavaScript `hay.includes(needle)`. -/
def listIsSub [DecidableEq α] (needle : List α) : List α → Bool
  | [] => needle.isEmpty
  | c :: rest => listStartsWith needle (c :: rest) || listIsSub needle rest

/-- JavaScript `hay.includes(needle)`. -/
def jsIncludes (needle hay : String) : Bool :=
  listIsSub needle.toList hay.toList

/-- JavaScript `s.startsWith(pre)`. -/
def jsStartsWith (pre s : String) : Bool :=
  listStartsWith pre.toList s.toList

/-- JavaScript `s.endsWith(suf)`. -/
def jsEndsWith (suf s : String) : Bool :=
  listStartsWith suf.toList.reverse s.toList.reverse

/-- JavaScript `s.slice(0, n)` for `0 ≤ n` (`String.prototype.slice` on
character positions). -/
def jsTake (s : String) (n : Nat) : String :=
  String.mk (s.toList.take n)

/-- JavaScript `s.slice(n)` for `0 ≤ n`. -/
def jsSliceFrom (s : String) (n : Nat) : String :=
  String.mk (s.toList.drop n)

/-- Remove the final `n` characters. -/
def jsDropRight (s : String) (n : Nat) : String :=
  String.mk (s.toList.take (s.toList.length - n))

/-- JavaScript `s.split(c)` for a single literal separator character (keeps
empty fields). -/
def splitOnCharAux (c : Char) : List Char → List Char → List String
  | [], cur => [String.mk cur.reverse]
  | x :: xs, cur =>
      if x = c then String.mk cur.reverse :: splitOnCharAux c xs []
      else splitOnCharAux c xs (x :: cur)

/-- JavaScript `s.split(c)` for a literal one-character separator. -/
def splitOnChar (c : Char) (s : String) : List String :=
  splitOnCharAux c s.toList []

/-- Splitting worker for `jsSplitWs`.  The second argument is `some cur` while a
token (collected reversed in `cur`) is being read and `none` while inside a
whitespace run that has already terminated a token. -/
def jsSplitWsAux : List Char → Option (List Char) → List String
  | [], none => [""]
  | [], some cur => [String.mk cur.reverse]
  | c :: cs, none =>
      if jsIsSpace c then jsSplitWsAux cs none else jsSplitWsAux cs (some [c])
  | c :: cs, some cur =>
      if jsIsSpace c then String.mk cur.reverse :: jsSplitWsAux cs none
      else jsSplitWsAux cs (some (c :: cur))

/-- JavaScript `s.split(/\s+/)`: tokens between maximal whitespace runs, with
an empty leading (resp. trailing) token when the string starts (resp. ends)
with whitespace. -/
def jsSplitWs (s : String) : List String :=
  jsSplitWsAux s.toList (some [])

/-- Insertion-order deduplication: the element order of a JavaScript `Set`
built from a list. -/
def jsSetOfList (l : List String) : List String :=
  l.foldl (fun acc x => if x ∈ acc then acc else acc ++ [x]) []

/-! ## Semantic document model (`src/types`) -/

/-- `DocSection` of `src/types`.  The `hash` field is the md5 content
fingerprint; the hash function itself is a host builtin and is passed to the
parser as a parameter. -/
structure DocSection where
  id : String
  path : String
  heading : String
  level : Nat
  content : String
  lineStart : Nat
  lineEnd : Nat
  hash : String
deriving DecidableEq, Repr

/-- `TableInfo` of `src/types`. -/
structure TableInfo where
  id : String
  caption : Option String
  headers : List String
  rowCount : Nat
  lineStart : Nat
deriving DecidableEq, Repr

/-- `CodeBlockInfo` of `src/types`. -/
structure CodeBlockInfo where
  id : String
  language : Option String
  lineStart : Nat
  lineEnd : Nat
deriving DecidableEq, Repr

/-- `LinkInfo` of `src/types`. -/
structure LinkInfo where
  id : String
  url : String
  text : String
  isInternal : Bool
  targetPath : Option String
deriving DecidableEq, Repr

/-- `DocDocument` of `src/types` (frontmatter values are the flat key/value
strings produced by `parseFrontmatter`). -/
structure DocDocument where
  path : String
  sections : List DocSection
  frontmatter : Option (List (String × String))
  tables : List TableInfo
  codeBlocks : List CodeBlockInfo
  links : List LinkInfo
deriving DecidableEq, Repr

/-- The `type` discriminant of `SectionChange`. -/
inductive ChangeType where
  | added
  | removed
  | modified
  | moved
deriving DecidableEq, Repr

/-- `SectionChange` of `src/types`. -/
structure SectionChange where
  type : ChangeType
  oldPath : Option String := none
  newPath : Option String := none
  oldHeading : Option String := none
  newHeading : Option String := none
  similarity : Option ℚ := none
deriving DecidableEq, Repr

/-- The `stats` aggregate of `SemanticDiff`. -/
structure DiffStats where
  added : Nat
  removed : Nat
  modified : Nat
  moved : Nat
deriving DecidableEq, Repr

/-- `SemanticDiff` of `src/types`. -/
structure SemanticDiff where
  sections : List SectionChange
  stats : DiffStats
deriving DecidableEq, Repr

/-! ## JavaScript `Map` over section paths

`computeSemanticDiff` builds `new Map(doc.sections.map(s => [s.path, s]))`.
A JavaScript `Map` iterates in key-insertion order, and re-setting an existing
key overwrites the value in place.  It is modelled by an association list. -/

/-- `Map.prototype.set`: overwrite in place if the key exists, append
otherwise. -/
def mapSet (m : List (String × DocSection)) (k : String) (v : DocSection) :
    List (String × DocSection) :=
  if m.any (fun p => p.1 = k) then
    m.map (fun p => if p.1 = k then (k, v) else p)
  else
    m ++ [(k, v)]

/-- `new Map(sections.map(s => [s.path, s]))`. -/
def mkPathMap (ss : List DocSection) : List (String × DocSection) :=
  ss.foldl (fun m s => mapSet m s.path s) []

/-- `Map.prototype.has`. -/
def mapHas (m : List (String × DocSection)) (k : String) : Bool :=
  m.any (fun p => p.1 = k)

/-- `Map.prototype.get`. -/
def mapGet (m : List (String × DocSection)) (k : String) : Option DocSection :=
  (m.find? (fun p => p.1 = k)).map (fun p => p.2)

/-! ## Semantic diff engine (`src/lib/diff`) -/

/-- `computeSimilarity` of `src/lib/diff`: word-set Jaccard similarity of the
case-folded whitespace-split token sets, `0` if either side is the empty
string (the only falsy string) or either token set is empty. -/
def computeSimilarity (a b : String) : ℚ :=
  if a = "" || b = "" then 0
  else
    let wordsA := jsSetOfList (jsSplitWs (jsToLower a))
    let wordsB := jsSetOfList (jsSplitWs (jsToLower b))
    if wordsA.length = 0 || wordsB.length = 0 then 0
    else
      let inter := jsSetOfList (wordsA.filter (fun x => x ∈ wordsB))
      let union := jsSetOfList (wordsA ++ wordsB)
      (inter.length : ℚ) / (union.length : ℚ)

/-- `findMovedSection` of `src/lib/diff`: the first section of
`otherSections` (in map iteration order) whose path differs from `sec.path`
and whose content similarity with `sec` exceeds `0.8`. -/
def findMovedSection (sec : DocSection) (otherSections : List (String × DocSection)) :
    Option DocSection :=
  (otherSections.find? (fun p =>
    decide (p.2.path ≠ sec.path) &&
    decide (computeSimilarity sec.content p.2.content > (8 : ℚ) / 10))).map (fun p => p.2)

/-- The first loop of `computeSemanticDiff` (`Find added sections`): one
record per new-map entry whose path the old map lacks. -/
def diffAddedChanges (oldSections newSections : List (String × DocSection)) :
    List SectionChange :=
  newSections.filterMap (fun p =>
    if mapHas oldSections p.1 then none
    else some { type := .added, newPath := some p.1, newHeading := some p.2.heading })

/-- The second loop of `computeSemanticDiff` (`Find removed sections`): one
record per old-map entry whose path the new map lacks. -/
def diffRemovedChanges (oldSections newSections : List (String × DocSection)) :
    List SectionChange :=
  oldSections.filterMap (fun p =>
    if mapHas newSections p.1 then none
    else some { type := .removed, oldPath := some p.1, oldHeading := some p.2.heading })

/-- The third loop of `computeSemanticDiff` (`Find modified and moved
sections`): a `modified` record for a shared path with changed content, a
`moved` record for an old-only path when `findMovedSection` succeeds. -/
def diffModifiedMovedChanges (oldSections newSections : List (String × DocSection)) :
    List SectionChange :=
  oldSections.filterMap (fun p =>
    match mapGet newSections p.1 with
    | some newSection =>
        if p.2.content ≠ newSection.content then
          some { type := .modified, oldPath := some p.1, newPath := some p.1,
                 oldHeading := some p.2.heading, newHeading := some newSection.heading,
                 similarity := some (computeSimilarity p.2.content newSection.content) }
        else none
    | none =>
        match findMovedSection p.2 newSections with
        | some movedTo =>
            some { type := .moved, oldPath := some p.1, newPath := some movedTo.path,
                   oldHeading := some p.2.heading, newHeading := some movedTo.heading }
        | none => none)

/-- `computeSemanticDiff` of `src/lib/diff`.  The three `for` loops that push
change records are the three components above, concatenated in program order;
the final loop of the source (`Find moved sections that weren't removed`) has
an empty body and produces no records. -/
def computeSemanticDiff (oldDoc newDoc : DocDocument) : SemanticDiff :=
  let oldSections := mkPathMap oldDoc.sections
  let newSections := mkPathMap newDoc.sections
  let changes := diffAddedChanges oldSections newSections ++
    diffRemovedChanges oldSections newSections ++
    diffModifiedMovedChanges oldSections newSections
  { sections := changes,
    stats :=
      { added := changes.countP (fun c => c.type = .added),
        removed := changes.countP (fun c => c.type = .removed),
        modified := changes.countP (fun c => c.type = .modified),
        moved := changes.countP (fun c => c.type = .moved) } }

/-! ## Structural Markdown parser (`src/lib/markdown`)

The `unified`/`remark` Markdown engine is a host library; the syntax tree it
returns is abstracted as a list of top-level AST nodes, each carrying the
`mdast-util-to-string` text of the node.  The tree walk of `parseMarkdown`
visits these nodes in order.  Node positions are not modelled, so the
`node.position?.start?.line || 0` accesses take their `0` default.  The md5
`hashContent` builtin is a parameter `hashFn`. -/

/-- An abstracted `mdast` top-level node. -/
inductive MdNode where
  | heading (depth : Nat) (text : String)
  | paragraph (text : String)
  | listNode (text : String)
  | code (lang : Option String) (text : String)
  | table (headers : List String) (rowCount : Nat)
  | link (url : String) (text : String)
  | thematicBreak
deriving DecidableEq, Repr

/-- Is the node a heading? -/
def MdNode.isHeading : MdNode → Bool
  | .heading _ _ => true
  | _ => false

/-- Run-collapsing `String.replace` for a global regex of the shape
`/(class)+/g`: every maximal run of characters selected by `bad` is replaced
by the single character `rep`. -/
def collapseRuns (bad : Char → Bool) (rep : Char) : List Char → Bool → List Char
  | [], _ => []
  | c :: cs, prevRun =>
      if bad c then
        if prevRun then collapseRuns bad rep cs true
        else rep :: collapseRuns bad rep cs true
      else c :: collapseRuns bad rep cs false

/-- `slugify` of `src/lib/markdown`: lower-case, collapse each run of
characters outside `[a-z0-9]` to a single `-`, then strip one leading and one
trailing `-` (the regex `/^-|-$/g`). -/
def slugify (text : String) : String :=
  let lowered := (jsToLower text).toList
  let dashed := collapseRuns (fun c => !(c.isLower || c.isDigit)) '-' lowered false
  let noLead := if dashed.head? = some '-' then dashed.tail else dashed
  let noTrail := if noLead.getLast? = some '-' then noLead.dropLast else noLead
  String.mk noTrail

/-- `extractSectionContent` of `src/lib/markdown`: the text of the
paragraph/list/code siblings following the heading, up to the next heading,
joined by single spaces. -/
def extractSectionContent (rest : List MdNode) : String :=
  String.intercalate " " ((rest.takeWhile (fun n => !n.isHeading)).filterMap (fun n =>
    match n with
    | .paragraph t => some t
    | .listNode t => some t
    | .code _ t => some t
    | _ => none))

/-- `extractLinkPath` of `src/lib/markdown`: a fragment URL maps to its
anchor with every `-` replaced by `/`; a `.md`/`.mdx` URL maps to itself with
the extension stripped then one leading `/` stripped; anything else to
`null`. -/
def extractLinkPath (url : String) : Option String :=
  if jsStartsWith "#" url then
    some (String.mk ((url.toList.drop 1).map (fun c => if c = '-' then '/' else c)))
  else if jsEndsWith ".md" url || jsEndsWith ".mdx" url then
    let stripped := if jsEndsWith ".mdx" url then jsDropRight url 4 else jsDropRight url 3
    some (if jsStartsWith "/" stripped then jsSliceFrom stripped 1 else stripped)
  else none

/-- The `isInternal` test of the link branch of `parseMarkdown`. -/
def linkIsInternal (url : String) : Bool :=
  jsStartsWith "#" url || (!jsStartsWith "http" url && !jsStartsWith "//" url)

/-- The `visit` walk of `parseMarkdown`: fold over the node list carrying the
running heading path and the four id counters, producing the four collected
lists. -/
def visitTree (hashFn : String → String) :
    List MdNode → String → Nat → Nat → Nat → Nat →
    List DocSection × List TableInfo × List CodeBlockInfo × List LinkInfo
  | [], _, _, _, _, _ => ([], [], [], [])
  | n :: rest, currentPath, sectionCounter, tableCounter, codeCounter, linkCounter =>
    match n with
    | .heading depth text =>
        let newPath := if depth = 1 then slugify text
                       else currentPath ++ "/" ++ slugify text
        let sectionContent := extractSectionContent rest
        let s : DocSection :=
          { id := "section-" ++ toString sectionCounter, path := newPath,
            heading := text, level := depth, content := sectionContent,
            lineStart := 0, lineEnd := 0, hash := hashFn (text ++ sectionContent) }
        let r := visitTree hashFn rest newPath (sectionCounter + 1) tableCounter codeCounter linkCounter
        (s :: r.1, r.2.1, r.2.2.1, r.2.2.2)
    | .table headers rowCount =>
        let t : TableInfo :=
          { id := "table-" ++ toString tableCounter, caption := none,
            headers := headers, rowCount := rowCount, lineStart := 0 }
        let r := visitTree hashFn rest currentPath sectionCounter (tableCounter + 1) codeCounter linkCounter
        (r.1, t :: r.2.1, r.2.2.1, r.2.2.2)
    | .code lang _ =>
        let c : CodeBlockInfo :=
          { id := "code-" ++ toString codeCounter, language := lang,
            lineStart := 0, lineEnd := 0 }
        let r := visitTree hashFn rest currentPath sectionCounter tableCounter (codeCounter + 1) linkCounter
        (r.1, r.2.1, c :: r.2.2.1, r.2.2.2)
    | .link url text =>
        let isInternal := linkIsInternal url
        let l : LinkInfo :=
          { id := "link-" ++ toString linkCounter, url := url, text := text,
            isInternal := isInternal,
            targetPath := if isInternal then extractLinkPath url else none }
        let r := visitTree hashFn rest currentPath sectionCounter tableCounter codeCounter (linkCounter + 1)
        (r.1, r.2.1, r.2.2.1, l :: r.2.2.2)
    | _ =>
        visitTree hashFn rest currentPath sectionCounter tableCounter codeCounter linkCounter

/-- One line of `parseFrontmatter`: the regex `/^(\w+):\s*(.*)$/` followed by
stripping one leading and one trailing quote character from the value. -/
def parseFMLine (line : String) : Option (String × String) :=
  let cs := line.toList
  let key := cs.takeWhile isWordChar
  if key.length > 0 ∧ (cs.drop key.length).head? = some ':' then
    let afterColon := cs.drop (key.length + 1)
    let valueChars := afterColon.dropWhile jsIsSpace
    let isQuote := fun c => c = '"' || c = '\''
    let v1 := if (valueChars.head?.map isQuote).getD false then valueChars.tail else valueChars
    let v2 := if (v1.getLast?.map isQuote).getD false then v1.dropLast else v1
    some (String.mk key, String.mk v2)
  else none

/-- `parseFrontmatter` of `src/lib/markdown`: split on newlines, keep the
lines matching the key/value regex. -/
def parseFrontmatter (yaml : String) : List (String × String) :=
  (splitOnChar '\n' yaml).filterMap parseFMLine

/-- The frontmatter extraction of `parseMarkdown`: the anchored regex
matching three dashes, a newline, a lazily-matched group and a closing
newline-plus-three-dashes, applied when the content starts with three dashes —
the lazy group is delimited by the earliest occurrence of a newline followed
by three dashes at or after index 4. -/
def extractFrontmatterBlock (content : String) : Option String :=
  if jsStartsWith "---\n" content then
    let cs := content.toList
    ((List.range (cs.length)).find? (fun k =>
        4 ≤ k ∧ listStartsWith ['\n', '-', '-', '-'] (cs.drop k))).map
      (fun k => String.mk ((cs.drop 4).take (k - 4)))
  else none

/-- `parseMarkdown` of `src/lib/markdown`.  `nodes` is the syntax tree
returned by the host Markdown engine for `content`; `hashFn` is the md5
`hashContent` builtin. -/
def parseMarkdown (hashFn : String → String) (content : String)
    (nodes : List MdNode) (filePath : String) : DocDocument :=
  let frontmatter :=
    if jsStartsWith "---" content then
      (extractFrontmatterBlock content).map parseFrontmatter
    else none
  let r := visitTree hashFn nodes "" 0 0 0 0
  { path := filePath, sections := r.1, frontmatter := frontmatter,
    tables := r.2.1, codeBlocks := r.2.2.1, links := r.2.2.2 }

/-! ## Review data model (`src/types`) -/

/-- The `type` discriminant of `ReviewFinding`. -/
inductive FindingType where
  | info
  | warning
  | error
deriving DecidableEq, Repr

/-- `ReviewFinding` of `src/types` (`category` kept as its raw string;
`sectionName` renders the source field `section`, which is a reserved word
here). -/
structure ReviewFinding where
  type : FindingType
  category : String
  message : String
  file : Option String := none
  line : Option Nat := none
  sectionName : Option String := none
  suggestion : Option String := none
deriving DecidableEq, Repr

/-- The verdict enum of `V2Verdict`. -/
inductive VerdictKind where
  | approved
  | changes_requested
  | commented
deriving DecidableEq, Repr

/-- `RiskItem` of `src/types`.  The parser performs no schema validation on
risk objects, so every field is kept as the raw string, with `""` standing
for an absent field — each use in the sources (`|| ''` defaults, truthiness
tests, `=== 'high'` comparisons) treats absent and empty identically. -/
structure RiskItem where
  severity : String
  category : String
  description : String
  evidence : String
  suggestion : String
deriving DecidableEq, Repr

/-- `ReviewerChecklistItem` of `src/types`. -/
structure ReviewerChecklistItem where
  category : String
  item : String
  priority : String
deriving DecidableEq, Repr

/-- A `sections` entry of `PRBodySuggestion`. -/
structure PRBodySection where
  heading : String
  content : String
deriving DecidableEq, Repr

/-- An `updates` entry of `PRBodySuggestion` (`sectionName` renders the
source field `section`). -/
structure PRBodyUpdate where
  sectionName : String
  content : String
deriving DecidableEq, Repr

/-- `PRBodySuggestion` of `src/types`. -/
structure PRBodySuggestion where
  sections : List PRBodySection
  updates : List PRBodyUpdate
deriving DecidableEq, Repr

/-- `V2Verdict` of `src/types`. -/
structure V2Verdict where
  verdict : VerdictKind
  confidence : ℚ
  summary : String
deriving DecidableEq, Repr

/-- `V2ReviewOutput` of `src/types`. -/
structure V2ReviewOutput where
  prIntent : String
  changeOverview : String
  keyRisks : List RiskItem
  checklist : List ReviewerChecklistItem
  prBodySuggestion : PRBodySuggestion
  verdict : V2Verdict
deriving DecidableEq, Repr

/-- `PRContext` of `src/types` (an absent PR body is the empty string, the
only falsy value the sources test for). -/
structure PRContext where
  title : String
  body : String
  author : String
  baseRef : String
  headRef : String
  baseSha : String
  headSha : String
deriving DecidableEq, Repr

/-- `CodeFileInfo` of `src/lib/ai`. -/
structure CodeFileInfo where
  filename : String
  additions : Nat
  deletions : Nat
  patch : Option String := none
deriving DecidableEq, Repr

/-! ## Document classifier (`src/lib/classifier`, latest snapshot)

The regular-expression engine is a host builtin: `ptest pat text` stands for
`new RegExp(pat, flags).test(text)`, with `pat` the pattern source recorded in
`DOC_TYPE_PATTERNS`.  All weights are exact decimal literals. -/

/-- `DocTypeClassification` of `src/types` (`type` kept as the raw tag
string). -/
structure DocTypeClassification where
  type : String
  confidence : ℚ
  indicators : List String
deriving DecidableEq, Repr

/-- `DOC_TYPE_PATTERNS` of `src/lib/classifier`: genre tag, then
(pattern source, weight) rules in source order. -/
def DOC_TYPE_PATTERNS : List (String × List (String × ℚ)) :=
  [("sop",
    [("^#?\\s*(Standard\\s+Operating|Procedure|SOP)", 3),
     ("procedure|step\\s+\\d+|instructions|how\\s+to", 2),
     ("prerequisite|requirement|before\\s+you\\s+begin", 15/10),
     ("expected\\s+result|verification|success\\s+criteria", 2),
     ("troubleshooting|common\\s+issues|error\\s+handling", 15/10)]),
   ("adr",
    [("^#?\\s*(ADR|Architecture\\s+Decision)", 3),
     ("decision|context|consequences|status", 15/10),
     ("proposed|accepted|deprecated|superseded|supersedes", 2),
     ("date|author|revised", 1),
     ("alternatives|considered|options", 15/10)]),
   ("readme",
    [("^#?\\s*README", 4),
     ("installation|setup|getting\\s+started|quick\\s+start", 2),
     ("usage|example|api\\s+reference|license|contributing", 15/10),
     ("badge|version|build|test|features?", 1)]),
   ("runbook",
    [("runbook|playbook|run\\s+book|operations?\\s+manual", 3),
     ("incident|alert|on-call|escalation|severity", 2),
     ("symptom|root\\s+cause|resolution|recovery|mitigation", 2),
     ("monitoring|metrics|dashboard|runbook", 2),
     ("debug|troubleshoot|investigation", 15/10)]),
   ("pricing",
    [("^#?\\s*(pricing|plans?|cost|tier)", 3),
     ("\\$\\d+|USD|EUR|GBP|per\\s+(month|user|seat|year)|annual|billing|invoice", 2),
     ("feature\\s+matrix|comparison\\s+table", 2),
     ("subscription|fee|charge", 15/10)]),
   ("changelog",
    [("changelog|change\\s+log|release\\s+notes|history", 3),
     ("^\\d+\\.\\d+\\.\\d+|^v\\d+", 2),
     ("added|fixed|changed|deprecated|removed|security", 15/10)]),
   ("guide",
    [("guide|tutorial|walkthrough|howto|learn", 2),
     ("chapter|part\\s+\\d+|section\\s+\\d+", 1),
     ("prerequisite|before\\s+you\\s+start|getting\\s+started", 15/10),
     ("tip|note|warning|caution|important", 1)]),
   ("api",
    [("API|REST|endpoint|route|request|response", 2),
     ("GET|POST|PUT|DELETE|PATCH", 2),
     ("authentication|authorization|token|API\\s*key| Bearer", 2),
     ("parameter|header|body|query|schema", 15/10),
     ("example|curl|javascript|python|response", 15/10)]),
   ("contrib",
    [("contributing|CONTRIBUTING|contribution", 3),
     ("pull\\s+request|PR|branch|commit", 2),
     ("code\\s+of\\s+conduct|license|develop|test", 15/10)])]

/-- The score contribution of one pattern rule inside the genre loop of
`classifyDocument`: title match counts double weight, heading match counts
the weight, content match counts `0.3` of the weight. -/
def patternScore (ptest : String → String → Bool)
    (title allHeadings allContent : String) (pw : String × ℚ) : ℚ :=
  (if ptest pw.1 title then pw.2 * 2 else 0) +
  (if ptest pw.1 allHeadings then pw.2 else 0) +
  (if ptest pw.1 allContent then pw.2 * (3/10) else 0)

/-- The indicator strings pushed for one pattern rule (title match then
heading match, in source order). -/
def patternIndicators (ptest : String → String → Bool)
    (title allHeadings : String) (pw : String × ℚ) : List String :=
  (if ptest pw.1 title then ["Title: " ++ pw.1] else []) ++
  (if ptest pw.1 allHeadings then ["Heading: " ++ pw.1] else [])

/-- The `title` input of `classifyDocument`:
`doc.sections[0]?.heading || ''`. -/
def classifyTitle (doc : DocDocument) : String :=
  ((doc.sections.head?).map (fun s => s.heading)).getD ""

/-- The `allHeadings` input of `classifyDocument`. -/
def classifyAllHeadings (doc : DocDocument) : String :=
  String.intercalate " " (doc.sections.map (fun s => s.heading))

/-- The `allContent` input of `classifyDocument`. -/
def classifyAllContent (doc : DocDocument) : String :=
  String.intercalate " " (doc.sections.map (fun s => s.content))

/-- The per-genre pattern scores of `classifyDocument`, before the structural
(table / code-block) boosts. -/
def classifyBaseScores (ptest : String → String → Bool) (doc : DocDocument) :
    List (String × ℚ) :=
  DOC_TYPE_PATTERNS.map (fun g =>
    (g.1, (g.2.map (patternScore ptest (classifyTitle doc) (classifyAllHeadings doc)
      (classifyAllContent doc))).sum))

/-- The indicator list accumulated across all genres by `classifyDocument`. -/
def classifyIndicators (ptest : String → String → Bool) (doc : DocDocument) :
    List String :=
  (DOC_TYPE_PATTERNS.map (fun g =>
    (g.2.map (patternIndicators ptest (classifyTitle doc) (classifyAllHeadings doc))).flatten)).flatten

/-- `scores[k] = (scores[k] || 0) + δ` for a key already present in the score
record. -/
def bumpScore (scores : List (String × ℚ)) (k : String) (δ : ℚ) :
    List (String × ℚ) :=
  scores.map (fun p => if p.1 = k then (p.1, p.2 + δ) else p)

/-- The genre scores of `classifyDocument` after the table and code-block
boosts. -/
def classifyScores (ptest : String → String → Bool) (doc : DocDocument) :
    List (String × ℚ) :=
  let base := classifyBaseScores ptest doc
  let withTables :=
    if doc.tables.length > 0 then
      bumpScore (bumpScore base "pricing" ((doc.tables.length : ℚ) * (5/10)))
        "adr" ((doc.tables.length : ℚ) * (3/10))
    else base
  if doc.codeBlocks.length > 0 then
    bumpScore (bumpScore (bumpScore (bumpScore withTables
      "runbook" ((doc.codeBlocks.length : ℚ) * (3/10)))
      "guide" ((doc.codeBlocks.length : ℚ) * (3/10)))
      "sop" ((doc.codeBlocks.length : ℚ) * (2/10)))
      "api" ((doc.codeBlocks.length : ℚ) * (4/10))
  else withTables

/-- `classifyDocument` of `src/lib/classifier`: highest-scoring genre (strict
improvement over the running maximum, which starts at `("other", 0)`),
confidence `min(maxScore / totalScore + 0.3, 1)` when the total score is
positive and `0` otherwise, and the first five indicators. -/
def classifyDocument (ptest : String → String → Bool) (doc : DocDocument) :
    DocTypeClassification :=
  let scores := classifyScores ptest doc
  let maxEntry := scores.foldl (fun mt p => if p.2 > mt.2 then (p.1, p.2) else mt) ("other", 0)
  let totalScore := (scores.map (fun p => p.2)).sum
  let confidence := if totalScore > 0 then min (maxEntry.2 / totalScore + 3/10) 1 else 0
  { type := maxEntry.1, confidence := confidence,
    indicators := (classifyIndicators ptest doc).take 5 }

/-- `validateLinks` of `src/lib/classifier`: a warning for each internal link
whose truthy resolved target path is not an existing section path, then an
info for each external link whose URL matches one of the deprecated patterns
(the literal `http://` or `www.`). -/
def validateLinks (doc : DocDocument) : List ReviewFinding :=
  let sectionPaths := doc.sections.map (fun s => s.path)
  let brokenFindings := doc.links.filterMap (fun link =>
    if !link.isInternal then none
    else
      match link.targetPath with
      | some tp =>
          if tp ≠ "" ∧ ¬ tp ∈ sectionPaths then
            some { type := FindingType.warning, category := "link",
                   message := "Broken internal link: " ++ link.url }
          else none
      | none => none)
  let httpsFindings := doc.links.filterMap (fun link =>
    if link.isInternal then none
    else if jsIncludes "http://" link.url || jsIncludes "www." link.url then
      some { type := FindingType.info, category := "link",
             message := "Consider using HTTPS for: " ++ link.url }
    else none)
  brokenFindings ++ httpsFindings

/-! ## Model-response parsing (`src/lib/ai`)

`JSON.parse` is a host builtin and is abstracted as a parameter
`parseJson : String → Option Json` of `parseV2Response` (`none` models a
thrown `SyntaxError`, which the surrounding `try` turns into a `null`
result).  JSON numbers are `ℚ`. -/

/-- A parsed JSON value. -/
inductive Json where
  | null
  | bool (b : Bool)
  | num (q : ℚ)
  | str (s : String)
  | arr (elems : List Json)
  | obj (fields : List (String × Json))

/-- JavaScript property access `j[k]` (`none` is `undefined`; access on a
non-object yields `undefined`). -/
def Json.get : Json → String → Option Json
  | .obj kvs, k => (kvs.find? (fun p => p.1 == k)).map (fun p => p.2)
  | _, _ => none

/-- JavaScript truthiness of a JSON value. -/
def Json.truthy : Json → Bool
  | .null => false
  | .bool b => b
  | .num q => decide (q ≠ 0)
  | .str s => decide (s ≠ "")
  | .arr _ => true
  | .obj _ => true

/-- Is the value JSON `null`? -/
def Json.isNull : Json → Bool
  | .null => true
  | _ => false

/-- Truthiness of a possibly-undefined value. -/
def jsonTruthy (o : Option Json) : Bool :=
  match o with
  | some j => j.truthy
  | none => false

/-- Read a field that the sources consume as a string: the raw string when
the value is a JSON string, `""` otherwise (absent and empty are treated
identically by every `|| ''` default and `===` comparison downstream). -/
def jsonStrOrEmpty (o : Option Json) : String :=
  match o with
  | some (.str s) => s
  | _ => ""

/-- Read a field that the sources consume as an array (`x || []`). -/
def jsonArrOrEmpty (o : Option Json) : List Json :=
  match o with
  | some (.arr xs) => xs
  | _ => []

/-- A raw risk object converted to the `RiskItem` view of its five fields. -/
def jsonToRisk (j : Json) : RiskItem :=
  { severity := jsonStrOrEmpty (j.get "severity"),
    category := jsonStrOrEmpty (j.get "category"),
    description := jsonStrOrEmpty (j.get "description"),
    evidence := jsonStrOrEmpty (j.get "evidence"),
    suggestion := jsonStrOrEmpty (j.get "suggestion") }

/-- A raw checklist object converted to `ReviewerChecklistItem`. -/
def jsonToChecklistItem (j : Json) : ReviewerChecklistItem :=
  { category := jsonStrOrEmpty (j.get "category"),
    item := jsonStrOrEmpty (j.get "item"),
    priority := jsonStrOrEmpty (j.get "priority") }

/-- A raw PR-body section object. -/
def jsonToBodySection (j : Json) : PRBodySection :=
  { heading := jsonStrOrEmpty (j.get "heading"),
    content := jsonStrOrEmpty (j.get "content") }

/-- A raw PR-body update object. -/
def jsonToBodyUpdate (j : Json) : PRBodyUpdate :=
  { sectionName := jsonStrOrEmpty (j.get "section"),
    content := jsonStrOrEmpty (j.get "content") }

/-- `parsed.keyRisks?.filter(...) || []` of `parseV2Response`: absent or
`null` yields `[]`; a non-array value has no `.filter` and a `null` array
element makes the filter callback throw on `r.severity` — both `TypeError`s
are caught by the surrounding `try`, so they surface as `none` (the parser
returns `null`). -/
def jsKeyRisksArray (parsed : Json) : Option (List Json) :=
  match parsed.get "keyRisks" with
  | none => some []
  | some .null => some []
  | some (.arr xs) => if xs.any Json.isNull then none else some xs
  | some _ => none

/-- `r.severity === 'high'` on a raw risk object. -/
def jsonSevHigh (r : Json) : Bool :=
  match r.get "severity" with
  | some (.str s) => s == "high"
  | _ => false

/-- The regex match `aiResponse.match` of a left brace, any characters and a
right brace (greedy): the span from the first left brace to the last right
brace after it, if any. -/
def extractJsonSpan (s : String) : Option String :=
  let cs := s.toList
  match cs.findIdx? (fun c => c == lbrace), cs.reverse.findIdx? (fun c => c == rbrace) with
  | some i, some jr =>
      let j := cs.length - 1 - jr
      if i < j then some (String.mk ((cs.drop i).take (j - i + 1))) else none
  | _, _ => none

/-- The valid verdict enum of `parseV2Response`. -/
def validVerdicts : List String := ["approved", "changes_requested", "commented"]

/-- `validVerdicts.includes` on a verdict string, paired with the resulting
enum value. -/
def verdictKindOfString (s : String) : Option VerdictKind :=
  if s = "approved" then some .approved
  else if s = "changes_requested" then some .changes_requested
  else if s = "commented" then some .commented
  else none

/-- The V3 confidence calibration of `parseV2Response`: cap at `0.92` when
the model reported high-severity risks and raw confidence exceeds `0.85`,
cap at `0.82` otherwise, clamp into `[0, 1]`, and cap an `approved` verdict
at `0.82` regardless. -/
def calibrateParsedConfidence (verdict : VerdictKind) (rawConfidence : ℚ)
    (highRiskCount : Nat) : ℚ :=
  let calibratedConfidence :=
    if highRiskCount > 0 ∧ rawConfidence > 85/100 then min rawConfidence (92/100)
    else min rawConfidence (82/100)
  let normalizedConfidence := max 0 (min 1 calibratedConfidence)
  if verdict = VerdictKind.approved then min normalizedConfidence (82/100)
  else normalizedConfidence

/-- `parseV2Response` of `src/lib/ai`: extract the brace-delimited span,
parse it, validate required fields / verdict enum / confidence range,
calibrate the confidence and assemble the structured output; every rejection
and every caught exception is `none`. -/
def parseV2Response (parseJson : String → Option Json) (aiResponse : String) :
    Option V2ReviewOutput :=
  match extractJsonSpan aiResponse with
  | none => none
  | some span =>
  match parseJson span with
  | none => none
  | some parsed =>
  -- property access on a parsed `null` throws; caught by the `try`
  if parsed.isNull then none
  else if !jsonTruthy (parsed.get "prIntent") || !jsonTruthy (parsed.get "changeOverview")
      || !jsonTruthy (parsed.get "verdict") then none
  else
    let vj := (parsed.get "verdict").getD .null
    let verdictRaw : Json :=
      match vj.get "verdict" with
      | some w => if w.truthy then w else .str "commented"
      | none => .str "commented"
    match (match verdictRaw with | .str s => verdictKindOfString s | _ => none) with
    | none => none
    | some verdict =>
    let rawConfJ : Json :=
      match vj.get "confidence" with
      | some .null => .num (5/10)
      | none => .num (5/10)
      | some c => c
    match rawConfJ with
    | .num rawConfidence =>
        if rawConfidence < 0 ∨ rawConfidence > 1 then none
        else
          match jsKeyRisksArray parsed with
          | none => none
          | some risksJ =>
            let errors := risksJ.filter jsonSevHigh
            let finalConfidence := calibrateParsedConfidence verdict rawConfidence errors.length
            some
              { prIntent := jsonStrOrEmpty (parsed.get "prIntent"),
                changeOverview := jsonStrOrEmpty (parsed.get "changeOverview"),
                keyRisks := risksJ.map jsonToRisk,
                checklist := (jsonArrOrEmpty (parsed.get "checklist")).map jsonToChecklistItem,
                prBodySuggestion :=
                  { sections := (jsonArrOrEmpty ((parsed.get "prBodySuggestion").bind
                      (fun j => j.get "sections"))).map jsonToBodySection,
                    updates := (jsonArrOrEmpty ((parsed.get "prBodySuggestion").bind
                      (fun j => j.get "updates"))).map jsonToBodyUpdate },
                verdict :=
                  { verdict := verdict, confidence := finalConfidence,
                    summary := jsonStrOrEmpty (vj.get "summary") } }
    | _ => none

/-! ## Deterministic fallback synthesis (`src/lib/ai`) -/

/-- Truthiness of an optional string field. -/
def optStrTruthy : Option String → Bool
  | some s => decide (s ≠ "")
  | none => false

/-- The verdict-determination block of `generateDeterministicFallback`
(verdict, raw confidence and verdict summary as a pure function of the
error/warning counts, before calibration). -/
def fallbackVerdictRaw (findings : List ReviewFinding) : VerdictKind × ℚ × String :=
  let errors := findings.filter (fun f => decide (f.type = FindingType.error))
  let warnings := findings.filter (fun f => decide (f.type = FindingType.warning))
  if errors.length > 0 then
    (.changes_requested, 95/100, toString errors.length ++ " error(s) must be addressed before merging.")
  else if warnings.length > 3 then
    (.commented, 7/10, toString warnings.length ++ " warnings should be reviewed.")
  else if warnings.length > 0 then
    (.approved, 8/10, toString warnings.length ++ " warning(s) noted but not blocking.")
  else
    (.approved, 9/10, "No critical issues detected in documentation changes.")

/-- The `evidence` string synthesized for a fallback risk item. -/
def fallbackEvidence (f : ReviewFinding) : String :=
  if optStrTruthy f.file then
    "File: " ++ f.file.getD "" ++
      (match f.line with
       | some n => if n ≠ 0 then ":" ++ toString n else ""
       | none => "")
  else "General"

/-- The V3 calibration block of `generateDeterministicFallback`: docs-only
mild warnings cap at `0.75`, mild warnings cap at `0.82`, errors cap at
`0.92`, and an `approved` verdict caps at `0.82` regardless. -/
def calibrateFallbackConfidence (verdict : VerdictKind) (rawConfidence : ℚ)
    (isDocsOnly hasMildWarnings : Bool) (errorCount : Nat) : ℚ :=
  let calibratedConfidence :=
    if isDocsOnly && hasMildWarnings then min rawConfidence (75/100)
    else if hasMildWarnings then min rawConfidence (82/100)
    else if errorCount > 0 then min rawConfidence (92/100)
    else rawConfidence
  if verdict = VerdictKind.approved then min calibratedConfidence (82/100)
  else calibratedConfidence

/-- `generateDeterministicFallback` of `src/lib/ai`. -/
def generateDeterministicFallback (prContext : PRContext)
    (docType : DocTypeClassification) (semanticDiff : SemanticDiff)
    (findings : List ReviewFinding) (codeFiles : Option (List CodeFileInfo)) :
    V2ReviewOutput :=
  let errors := findings.filter (fun f => decide (f.type = FindingType.error))
  let warnings := findings.filter (fun f => decide (f.type = FindingType.warning))
  let vrs := fallbackVerdictRaw findings
  let verdict := vrs.1
  let rawConfidence := vrs.2.1
  let verdictSummary := vrs.2.2
  let isDocsOnly := match codeFiles with
    | some cf => decide (cf.length = 0)
    | none => false
  let hasMildWarnings := decide (warnings.length > 0 ∧ errors.length = 0)
  let finalVerdict : V2Verdict :=
    { verdict := verdict,
      confidence :=
        calibrateFallbackConfidence verdict rawConfidence isDocsOnly hasMildWarnings
          errors.length,
      summary := verdictSummary }
  let keyRisks : List RiskItem :=
    (errors.take 3).map (fun e =>
      { severity := "high", category := e.category, description := jsTake e.message 200,
        evidence := fallbackEvidence e,
        suggestion :=
          if optStrTruthy e.suggestion then e.suggestion.getD ""
          else "Fix the error before merging." }) ++
    (warnings.take 2).map (fun w =>
      { severity := "medium", category := w.category, description := jsTake w.message 200,
        evidence := fallbackEvidence w,
        suggestion :=
          if optStrTruthy w.suggestion then w.suggestion.getD ""
          else "Consider addressing this warning." })
  let checklist : List ReviewerChecklistItem :=
    (if docType.type = "sop" then
      [{ category := "docs", item := "SOP includes clear step-by-step instructions", priority := "required" },
       { category := "docs", item := "Prerequisites are documented", priority := "required" },
       { category := "testing", item := "Process has been tested successfully", priority := "recommended" }]
     else if docType.type = "readme" then
      [{ category := "docs", item := "README includes installation instructions", priority := "required" },
       { category := "docs", item := "README includes usage examples", priority := "required" }]
     else if docType.type = "api" then
      [{ category := "docs", item := "API endpoints have clear descriptions", priority := "required" },
       { category := "docs", item := "Request/response formats are documented", priority := "required" }]
     else []) ++
    (if semanticDiff.stats.added > 0 then
      [{ category := "docs", item := "New sections have clear headings", priority := "recommended" }] else []) ++
    (if semanticDiff.stats.removed > 0 then
      [{ category := "docs", item := "Removed content is reflected in navigation/index", priority := "recommended" }] else []) ++
    (if semanticDiff.stats.modified > 0 then
      [{ category := "docs", item := "Modified sections are consistent with rest of doc", priority := "recommended" }] else [])
  let prIntent :=
    if prContext.body ≠ "" then jsTake prContext.body 200
    else "Update " ++ docType.type ++ " documentation with " ++
      toString (semanticDiff.stats.added + semanticDiff.stats.modified) ++ " section change(s)."
  let stats := semanticDiff.stats
  let changeOverview :=
    toString stats.added ++ " section(s) added, " ++ toString stats.removed ++
      " removed, " ++ toString stats.modified ++ " modified. " ++
      toString errors.length ++ " error(s), " ++ toString warnings.length ++ " warning(s) found."
  { prIntent := jsTake prIntent 300,
    changeOverview := changeOverview,
    keyRisks := keyRisks,
    checklist := checklist.take 8,
    prBodySuggestion := { sections := [], updates := [] },
    verdict := finalVerdict }

/-! ## Verdict, guardrail and risk passes (`src/handlers/github`) -/

/-- Check-run conclusions (`CheckRunConclusion` of `src/types`). -/
inductive Conclusion where
  | success
  | failure
  | neutral
  | cancelled
  | skipped
  | timed_out
deriving DecidableEq, Repr

/-- Fuel-driven worker for `removeBracketed`; the fuel is an upper bound on
the number of characters consumed and never runs out when initialized with
the list length. -/
def removeBracketedAux : Nat → List Char → List Char
  | 0, cs => cs
  | fuel + 1, [] => (fun _ => []) fuel
  | fuel + 1, c :: rest =>
      if c = '[' then
        let inner := rest.takeWhile (fun x => x ≠ ']')
        if inner.length > 0 ∧ inner.length < rest.length then
          removeBracketedAux fuel (rest.drop (inner.length + 1))
        else c :: removeBracketedAux fuel rest
      else c :: removeBracketedAux fuel rest

/-- The global regex replace deleting every bracketed span (an opening
bracket, one or more non-closing-bracket characters, a closing bracket),
scanning left to right. -/
def removeBracketed (cs : List Char) : List Char :=
  removeBracketedAux cs.length cs

/-- `normalizeTextForCompare` of `src/handlers/github`: lower-case, delete
backticks, delete bracketed spans, map the remaining characters outside
`[a-z0-9\s]` to spaces, collapse whitespace runs to single spaces and trim. -/
def normalizeTextForCompare (text : String) : String :=
  let step1 := (jsToLower text).toList.filter (fun c => c ≠ backtickChar)
  let step2 := removeBracketed step1
  let step3 := step2.map (fun c => if c.isLower || c.isDigit || jsIsSpace c then c else ' ')
  let step4 := collapseRuns jsIsSpace ' ' step3 false
  let step5 := ((step4.dropWhile jsIsSpace).reverse.dropWhile jsIsSpace).reverse
  String.mk step5

/-- Is the character at index `i` a regex word character (out-of-range
counts as a non-word position)? -/
def wordCharAt (cs : List Char) (i : Nat) : Bool :=
  match cs.get? i with
  | some c => isWordChar c
  | none => false

/-- The regex word-boundary assertion at position `i` (between indices
`i - 1` and `i`). -/
def boundaryAt (cs : List Char) (i : Nat) : Bool :=
  if i = 0 then wordCharAt cs 0
  else wordCharAt cs (i - 1) != wordCharAt cs i

/-- Case-insensitive anchored match of the (lower-case) pattern characters at
index `i`. -/
def matchCharsAt (cs : List Char) (i : Nat) (pat : List Char) : Bool :=
  listStartsWith pat ((cs.drop i).map Char.toLower)

/-- The character class of the concrete-file-reference regex of
`isGenericSpeculativeRisk` (with the `i` flag folded in). -/
def fileClassChar (c : Char) : Bool :=
  c.isAlpha || c.isDigit || c = '_' || c = '-' || c = '/'

/-- The extension alternatives of the concrete-file-reference regex. -/
def fileExtensions : List (List Char) :=
  [['m', 'd'], ['t', 's'], ['j', 's'], ['t', 's', 'x'], ['j', 's', 'x'],
   ['j', 's', 'o', 'n'], ['y', 'm', 'l'], ['y', 'a', 'm', 'l']]

/-- The case-insensitive test for a word-bounded file path with a known
extension (one or more class characters, a dot, an extension alternative,
word boundaries on both sides). -/
def fileRefTest (s : String) : Bool :=
  let cs := s.toList
  let n := cs.length
  (List.range n).any (fun i =>
    boundaryAt cs i &&
    (List.range (n - i)).any (fun len =>
      let j := i + len
      ((List.range (len + 1)).all (fun d =>
        match cs.get? (i + d) with
        | some c => fileClassChar c
        | none => false)) &&
      (cs.get? (j + 1) == some '.') &&
      fileExtensions.any (fun ext =>
        matchCharsAt cs (j + 2) ext && boundaryAt cs (j + 2 + ext.length))))

/-- The case-insensitive test for the word-bounded word `line`. -/
def lineWordTest (s : String) : Bool :=
  let cs := s.toList
  (List.range cs.length).any (fun i =>
    matchCharsAt cs i ['l', 'i', 'n', 'e'] && boundaryAt cs i && boundaryAt cs (i + 4))

/-- The test for a word-bounded `src/` source-path token (case sensitive). -/
def srcPathTest (s : String) : Bool :=
  let cs := s.toList
  (List.range cs.length).any (fun i =>
    listStartsWith ['s', 'r', 'c', '/'] (cs.drop i) && boundaryAt cs i)

/-- `isMoveReorderRisk` of `src/handlers/github`: the risk text mentions
reorganization vocabulary and the diff shows moved, added and removed
sections at once. -/
def isMoveReorderRisk (risk : RiskItem) (semanticDiff : SemanticDiff) : Bool :=
  let text := jsToLower (risk.description ++ " " ++ risk.evidence)
  let hints := ["section(s) removed", "removed then re-added", "reorganized",
                "moved", "renamed", "semantic diff shows"]
  let hasHint := hints.any (fun h => jsIncludes h text)
  let diffSuggestsReorder :=
    decide (semanticDiff.stats.moved > 0 ∧ semanticDiff.stats.added > 0 ∧
      semanticDiff.stats.removed > 0)
  hasHint && diffSuggestsReorder

/-- The generic risk categories of `isGenericSpeculativeRisk`. -/
def genericRiskCategories : List String :=
  ["security", "performance", "testing", "breaking"]

/-- `isGenericSpeculativeRisk` of `src/handlers/github`: a generic-category
risk without concrete evidence is speculative; otherwise a risk is
speculative when its normalized description is empty, or when it is
generic-category and its description does not overlap any finding message
(mutual 40-character-window substring test on normalized text). -/
def isGenericSpeculativeRisk (risk : RiskItem) (findings : List ReviewFinding) : Bool :=
  let desc := jsToLower risk.description
  let evidence := jsToLower risk.evidence
  let genericCategory := genericRiskCategories.any (fun c => c == jsToLower risk.category)
  let hasConcreteEvidence := fileRefTest evidence || lineWordTest evidence || srcPathTest evidence
  if genericCategory && !hasConcreteEvidence then true
  else
    let normalizedDesc := normalizeTextForCompare desc
    if normalizedDesc = "" then true
    else
      let matchesFinding := findings.any (fun f =>
        let msg := normalizeTextForCompare f.message
        jsIncludes (jsTake normalizedDesc (min 40 normalizedDesc.length)) msg ||
        jsIncludes (jsTake msg (min 40 msg.length)) normalizedDesc)
      !matchesFinding && genericCategory

/-- The risk-normalization pass at the top of `generateV2PRComment`: each
move/reorder risk is reclassified (severity low, category docs, replaced
description and suggestion), then speculative risks are dropped.  The
surviving list is the retained risk set. -/
def v2CommentKeyRisks (semanticDiff : SemanticDiff) (findings : List ReviewFinding)
    (risks : List RiskItem) : List RiskItem :=
  (risks.map (fun risk =>
    if isMoveReorderRisk risk semanticDiff then
      { risk with
        severity := "low"
        category := "docs"
        description := "Section changes look like a move/reorder rather than destructive removal."
        suggestion := "Double-check headings and anchors, but treat as non-blocking documentation reorganization." }
    else risk)).filter (fun risk => !isGenericSpeculativeRisk risk findings)

/-- The deduplication pass of `generateV2PRComment`: first occurrence of each
normalized description wins; risks with an empty normalized description are
dropped. -/
def v2CommentRenderedRisks (risks : List RiskItem) : List RiskItem :=
  (risks.foldl (fun (acc : List RiskItem × List String) risk =>
    let normalized := normalizeTextForCompare risk.description
    if normalized = "" ∨ normalized ∈ acc.2 then acc
    else (acc.1 ++ [risk], acc.2 ++ [normalized])) ([], [])).1

/-- The verdict / conclusion determination and guardrail block of
`postReviewResults` (the portion of the handler that is pure data flow; the
REST posting around it is I/O).  Returns the final verdict, the check-run
conclusion, and the review as passed on to rendering (with the verdict
mutated by the guardrail when it fires). -/
def postReviewVerdict (v2Review : Option V2ReviewOutput)
    (findings : List ReviewFinding) :
    VerdictKind × Conclusion × Option V2ReviewOutput :=
  let base : VerdictKind × Conclusion :=
    match v2Review with
    | some r =>
        (r.verdict.verdict,
          match r.verdict.verdict with
          | .approved => .success
          | .changes_requested => .failure
          | .commented => .neutral)
    | none =>
        let errors := findings.filter (fun f => decide (f.type = FindingType.error))
        let warnings := findings.filter (fun f => decide (f.type = FindingType.warning))
        if errors.length > 0 then (.changes_requested, .failure)
        else if warnings.length > 2 then (.commented, .neutral)
        else (.approved, .success)
  let hasErrorFindings := findings.any (fun f => decide (f.type = FindingType.error))
  let hasHighRisk :=
    (match v2Review with
     | some r => r.keyRisks
     | none => []).any (fun r => r.severity == "high")
  if base.1 = VerdictKind.changes_requested ∧ !hasErrorFindings ∧ !hasHighRisk then
    (.commented, .neutral,
      v2Review.map (fun r =>
        { r with verdict :=
            { r.verdict with
              verdict := .commented
              summary := "Non-blocking review feedback only; no high-severity issues detected." } }))
  else (base.1, base.2, v2Review)

/-! ## Reference formulation for the heading-path amendment

`parseMarkdown` never pops the running path back to a shallower ancestor: a
non-level-1 heading extends the full path of the immediately preceding
heading, whatever the levels.  The following reference recursion states that
behaviour directly over the bare heading sequence; it is compared with the
parser by refinement. -/

/-- The `(depth, text)` heading sequence of a node list. -/
def headingNodes (nodes : List MdNode) : List (Nat × String) :=
  nodes.filterMap (fun n =>
    match n with
    | .heading d t => some (d, t)
    | _ => none)

/-- Reference path assignment (amended-specification formulation): a level-1
heading resets the path to its own slug; any other heading appends its slug
to the full path of the immediately preceding heading. -/
def specHeadingPathsAux : String → List (Nat × String) → List String
  | _, [] => []
  | cur, (d, t) :: rest =>
      let p := if d = 1 then slugify t else cur ++ "/" ++ slugify t
      p :: specHeadingPathsAux p rest

/-- Reference path assignment started from the empty path. -/
def specHeadingPaths (hs : List (Nat × String)) : List String :=
  specHeadingPathsAux "" hs

/-! ## Concrete inputs used by witnesses and counterexamples -/

/-- A document with a single section, explicit path and content. -/
def oneSectionDoc (path heading content : String) (level : Nat) : DocDocument :=
  { path := "doc.md",
    sections := [{ id := "section-0", path := path, heading := heading,
                   level := level, content := content, lineStart := 0, lineEnd := 0,
                   hash := "" }],
    frontmatter := none, tables := [], codeBlocks := [], links := [] }

/-- The old document of the move-detection example of the specification:
section at `a/b` with content `The quick brown fox jumps`. -/
def specExampleOldDoc : DocDocument :=
  oneSectionDoc "a/b" "B" "The quick brown fox jumps" 2

/-- The new document of the move-detection example of the specification:
`a/b` absent, section at `x/y` with content `The quick brown fox leaps`. -/
def specExampleNewDoc : DocDocument :=
  oneSectionDoc "x/y" "Y" "The quick brown fox leaps" 2

/-- A section at `a/b` whose content recurs verbatim at `x/y` in
`highSimNewSection` (similarity `1 > 0.8`). -/
def highSimOldSection : DocSection :=
  { id := "section-0", path := "a/b", heading := "B", level := 2,
    content := "alpha beta gamma delta epsilon", lineStart := 0, lineEnd := 0, hash := "" }

/-- The same content as `highSimOldSection` at the different path `x/y`. -/
def highSimNewSection : DocSection :=
  { id := "section-0", path := "x/y", heading := "Y", level := 2,
    content := "alpha beta gamma delta epsilon", lineStart := 0, lineEnd := 0, hash := "" }

/-- An old document whose single section at `a/b` has content identical to
the new-only section of `highSimNewDoc`. -/
def highSimOldDoc : DocDocument :=
  { path := "doc.md", sections := [highSimOldSection], frontmatter := none,
    tables := [], codeBlocks := [], links := [] }

/-- A new document with the same content as `highSimOldDoc` at the different
path `x/y`. -/
def highSimNewDoc : DocDocument :=
  { path := "doc.md", sections := [highSimNewSection], frontmatter := none,
    tables := [], codeBlocks := [], links := [] }

/-- An empty semantic diff. -/
def emptyDiff : SemanticDiff :=
  { sections := [], stats := { added := 0, removed := 0, modified := 0, moved := 0 } }

/-- A placeholder PR context. -/
def simplePRContext : PRContext :=
  { title := "t", body := "", author := "a", baseRef := "main", headRef := "f",
    baseSha := "0000000", headSha := "1111111" }

/-- A placeholder classification. -/
def otherDocType : DocTypeClassification :=
  { type := "other", confidence := 0, indicators := [] }

/-- A structured review with verdict `changes_requested` whose only risk item
has severity `high` but sits in the generic category `security` with empty
evidence, so the speculative-risk pass drops it. -/
def speculativeHighRiskReview : V2ReviewOutput :=
  { prIntent := "i", changeOverview := "o",
    keyRisks := [{ severity := "high", category := "security", description := "a",
                   evidence := "", suggestion := "" }],
    checklist := [], prBodySuggestion := { sections := [], updates := [] },
    verdict := { verdict := .changes_requested, confidence := 9/10, summary := "s" } }

/-- A parsed model answer whose `verdict.verdict` is the empty string: a
value outside the verdict enum that the parser nevertheless accepts by
defaulting it to `commented`. -/
def emptyVerdictJson : Json :=
  Json.obj [("prIntent", Json.str "a"), ("changeOverview", Json.str "b"),
            ("verdict", Json.obj [("verdict", Json.str "")])]

/-- A parsed model answer with verdict `approved` and confidence `1`. -/
def approvedJson : Json :=
  Json.obj [("prIntent", Json.str "a"), ("changeOverview", Json.str "b"),
            ("verdict", Json.obj [("verdict", Json.str "approved"),
                                  ("confidence", Json.num 1)])]

/-- The node list of a document whose only section slug is `quick-start` and
which links to itself through the fragment anchor of that slug. -/
def quickStartNodes : List MdNode :=
  [.heading 1 "Quick Start", .link "#quick-start" "quick start"]

/-- The parsed `quick-start` document (the hash builtin is irrelevant here
and instantiated by the constant empty string). -/
def quickStartDoc : DocDocument :=
  parseMarkdown (fun _ => "") "" quickStartNodes "README.md"

/-- A document that is empty except for one table, giving a positive
classifier score through the structural table boost alone. -/
def oneTableDoc : DocDocument :=
  { path := "t.md", sections := [], frontmatter := none,
    tables := [{ id := "table-0", caption := none, headers := [], rowCount := 0,
                 lineStart := 0 }],
    codeBlocks := [], links := [] }

/-- A pattern test that rejects everything (a concrete regex-engine
instantiation for witnesses). -/
def ptestNever : String → String → Bool := fun _ _ => false

/-- An error finding. -/
def oneErrorFinding : ReviewFinding :=
  { type := FindingType.error, category := "content", message := "boom" }

/-! ## Path-map lemmas -/

theorem mapSet_map_fst (m : List (String × DocSection)) (k : String) (v : DocSection) :
    (mapSet m k v).map Prod.fst =
      if mapHas m k then m.map Prod.fst else m.map Prod.fst ++ [k] := by
  unfold mapSet mapHas
  split
  · simp only [List.map_map]
    congr 1
    funext p
    by_cases h : p.1 = k <;> simp [h]
  · simp

theorem mkPathMap_keys_nodup_aux (ss : List DocSection) :
    ∀ m : List (String × DocSection), (m.map Prod.fst).Nodup →
      ((ss.foldl (fun m s => mapSet m s.path s) m).map Prod.fst).Nodup := by
  induction ss with
  | nil => intro m hm; simpa using hm
  | cons s t ih =>
      intro m hm
      simp only [List.foldl_cons]
      apply ih
      rw [mapSet_map_fst]
      split
      · exact hm
      · rename_i hhas
        rw [List.nodup_append]
        refine ⟨hm, List.nodup_singleton _, ?_⟩
        intro a ha
        simp only [List.mem_singleton]
        intro hak
        subst hak
        unfold mapHas at hhas
        simp only [List.any_eq_true, decide_eq_true_eq, not_exists, not_and,
          Bool.not_eq_true] at hhas
        obtain ⟨p, hp, hpk⟩ := List.mem_map.mp ha
        exact absurd (hhas p hp) (by simp [hpk])

theorem mkPathMap_keys_nodup (ss : List DocSection) :
    ((mkPathMap ss).map Prod.fst).Nodup :=
  mkPathMap_keys_nodup_aux ss [] (by simp)

theorem mem_mkPathMap_key_eq_path_aux (ss : List DocSection) :
    ∀ m : List (String × DocSection), (∀ p ∈ m, p.1 = p.2.path) →
      ∀ p ∈ ss.foldl (fun m s => mapSet m s.path s) m, p.1 = p.2.path := by
  induction ss with
  | nil => intro m hm; simpa using hm
  | cons s t ih =>
      intro m hm
      simp only [List.foldl_cons]
      apply ih
      intro p hp
      unfold mapSet at hp
      split at hp
      · obtain ⟨q, hq, hqp⟩ := List.mem_map.mp hp
        by_cases h : q.1 = s.path
        · simp only [h, if_true] at hqp
          subst hqp
          rfl
        · simp only [h, if_false] at hqp
          subst hqp
          exact hm q hq
      · rcases List.mem_append.mp hp with h | h
        · exact hm p h
        · simp only [List.mem_singleton] at h
          subst h
          rfl

theorem mem_mkPathMap_key_eq_path (ss : List DocSection) :
    ∀ p ∈ mkPathMap ss, p.1 = p.2.path :=
  mem_mkPathMap_key_eq_path_aux ss [] (by simp)

theorem mapHas_of_mem {m : List (String × DocSection)} {p : String × DocSection}
    (h : p ∈ m) : mapHas m p.1 = true := by
  unfold mapHas
  simp only [List.any_eq_true, decide_eq_true_eq]
  exact ⟨p, h, rfl⟩

theorem mapGet_eq_none_of_not_has {m : List (String × DocSection)} {k : String}
    (h : mapHas m k = false) : mapGet m k = none := by
  unfold mapHas at h
  unfold mapGet
  rw [List.find?_eq_none.mpr]
  · rfl
  · intro p hp
    simp only [List.any_eq_false, decide_eq_true_eq] at h
    simpa using h p hp

theorem find?_eq_some_of_mem_nodup {m : List (String × DocSection)}
    (hnd : (m.map Prod.fst).Nodup) {k : String} {v : DocSection}
    (hm : (k, v) ∈ m) :
    m.find? (fun p => decide (p.1 = k)) = some (k, v) := by
  induction m with
  | nil => simp at hm
  | cons a t ih =>
      simp only [List.map_cons, List.nodup_cons] at hnd
      rcases List.mem_cons.mp hm with h | h
      · subst h
        simp [List.find?_cons]
      · have hak : a.1 ≠ k := by
          intro hk
          exact hnd.1 (hk ▸ List.mem_map.mpr ⟨(k, v), h, rfl⟩)
        rw [List.find?_cons]
        simp only [decide_eq_false hak]
        exact ih hnd.2 h

theorem mapGet_self {m : List (String × DocSection)}
    (hnd : (m.map Prod.fst).Nodup) {k : String} {v : DocSection}
    (hm : (k, v) ∈ m) : mapGet m k = some v := by
  unfold mapGet
  rw [find?_eq_some_of_mem_nodup hnd hm]
  rfl

/-! ## C9: diffing a document against itself -/

/-- C9.  Idempotence: `computeSemanticDiff` applied to a document and itself
returns an empty change list and all-zero statistics. -/
theorem computeSemanticDiff_self_empty (doc : DocDocument) :
    computeSemanticDiff doc doc =
      { sections := [], stats := { added := 0, removed := 0, modified := 0, moved := 0 } } := by
  have hnd := mkPathMap_keys_nodup doc.sections
  have hadded : diffAddedChanges (mkPathMap doc.sections) (mkPathMap doc.sections) = [] := by
    unfold diffAddedChanges
    rw [List.filterMap_eq_nil_iff]
    intro p hp
    simp [mapHas_of_mem hp]
  have hremoved : diffRemovedChanges (mkPathMap doc.sections) (mkPathMap doc.sections) = [] := by
    unfold diffRemovedChanges
    rw [List.filterMap_eq_nil_iff]
    intro p hp
    simp [mapHas_of_mem hp]
  have hmm : diffModifiedMovedChanges (mkPathMap doc.sections) (mkPathMap doc.sections) = [] := by
    unfold diffModifiedMovedChanges
    rw [List.filterMap_eq_nil_iff]
    intro p hp
    have : mapGet (mkPathMap doc.sections) p.1 = some p.2 :=
      mapGet_self hnd (by simpa using hp)
    rw [this]
    simp
  unfold computeSemanticDiff
  simp only [hadded, hremoved, hmm, List.append_nil, List.nil_append, List.countP_nil]

/-! ## Per-path uniqueness of change records (C4) -/

theorem countP_filterMap_keyed_le_one
    (m : List (String × DocSection)) (hnd : (m.map Prod.fst).Nodup)
    (f : String × DocSection → Option SectionChange) (Q : SectionChange → Bool)
    (p₀ : String)
    (hf : ∀ a c, f a = some c → Q c = true → a.1 = p₀) :
    (m.filterMap f).countP Q ≤ 1 := by
  induction m with
  | nil => simp
  | cons a t ih =>
      simp only [List.map_cons, List.nodup_cons] at hnd
      rw [List.filterMap_cons]
      cases hfa : f a with
      | none => exact ih hnd.2
      | some c =>
          rw [List.countP_cons]
          by_cases hQ : Q c = true
          · have hzero : (t.filterMap f).countP Q = 0 := by
              rw [List.countP_eq_zero]
              intro c' hc'
              obtain ⟨b, hb, hfb⟩ := List.mem_filterMap.mp hc'
              intro hQ'
              have hb1 : b.1 = p₀ := hf b c' hfb hQ'
              have ha1 : a.1 = p₀ := hf a c hfa hQ
              exact hnd.1 (by
                rw [ha1, ← hb1]
                exact List.mem_map.mpr ⟨b, hb, rfl⟩)
            simp [hzero, hQ]
          · simp only [hQ, if_neg]
            simpa using ih hnd.2

theorem mem_diffAddedChanges_shape {oldS newS : List (String × DocSection)}
    {c : SectionChange} (h : c ∈ diffAddedChanges oldS newS) :
    c.type = ChangeType.added := by
  obtain ⟨p, _, hp⟩ := List.mem_filterMap.mp h
  by_cases hb : mapHas oldS p.1 = true <;> simp [hb] at hp <;> simp [← hp]

theorem mem_diffRemovedChanges_shape {oldS newS : List (String × DocSection)}
    {c : SectionChange} (h : c ∈ diffRemovedChanges oldS newS) :
    c.type = ChangeType.removed := by
  obtain ⟨p, _, hp⟩ := List.mem_filterMap.mp h
  by_cases hb : mapHas newS p.1 = true <;> simp [hb] at hp <;> simp [← hp]

theorem mem_diffModifiedMovedChanges_shape {oldS newS : List (String × DocSection)}
    {c : SectionChange} (h : c ∈ diffModifiedMovedChanges oldS newS) :
    c.type = ChangeType.modified ∨ c.type = ChangeType.moved := by
  obtain ⟨p, _, hp⟩ := List.mem_filterMap.mp h
  cases hg : mapGet newS p.1 with
  | some q =>
      rw [hg] at hp
      by_cases hc : p.2.content ≠ q.content <;> simp [hc] at hp <;> simp [← hp]
  | none =>
      rw [hg] at hp
      cases hm : findMovedSection p.2 newS with
      | some mv => rw [hm] at hp; simp at hp; simp [← hp]
      | none => rw [hm] at hp; simp at hp

/-- C4 (amended).  Per-path uniqueness holds within each change type: in the
diff of any two documents, a given path occurs as the old path of at most
one `removed`, at most one `modified` and at most one `moved` record, and as
the new path of at most one `added` and at most one `modified` record.  (The
unamended cross-type claim fails: move detection adds a `moved` record
without retracting the `removed` and `added` records, see the
counterexample.) -/
theorem per_type_path_uniqueness (oldDoc newDoc : DocDocument) (p : String) :
    ((computeSemanticDiff oldDoc newDoc).sections.countP
        (fun c => decide (c.type = ChangeType.removed) && decide (c.oldPath = some p)) ≤ 1) ∧
    ((computeSemanticDiff oldDoc newDoc).sections.countP
        (fun c => decide (c.type = ChangeType.modified) && decide (c.oldPath = some p)) ≤ 1) ∧
    ((computeSemanticDiff oldDoc newDoc).sections.countP
        (fun c => decide (c.type = ChangeType.moved) && decide (c.oldPath = some p)) ≤ 1) ∧
    ((computeSemanticDiff oldDoc newDoc).sections.countP
        (fun c => decide (c.type = ChangeType.added) && decide (c.newPath = some p)) ≤ 1) ∧
    ((computeSemanticDiff oldDoc newDoc).sections.countP
        (fun c => decide (c.type = ChangeType.modified) && decide (c.newPath = some p)) ≤ 1) := by
  have hndOld := mkPathMap_keys_nodup oldDoc.sections
  have hndNew := mkPathMap_keys_nodup newDoc.sections
  have hsec : (computeSemanticDiff oldDoc newDoc).sections =
      diffAddedChanges (mkPathMap oldDoc.sections) (mkPathMap newDoc.sections) ++
      diffRemovedChanges (mkPathMap oldDoc.sections) (mkPathMap newDoc.sections) ++
      diffModifiedMovedChanges (mkPathMap oldDoc.sections) (mkPathMap newDoc.sections) := rfl
  rw [hsec]
  have hzeroA : ∀ Q : SectionChange → Bool,
      (∀ c, c.type = ChangeType.added → Q c = false) →
      (diffAddedChanges (mkPathMap oldDoc.sections) (mkPathMap newDoc.sections)).countP Q = 0 := by
    intro Q hQ
    rw [List.countP_eq_zero]
    intro c hc
    simp [hQ c (mem_diffAddedChanges_shape hc)]
  have hzeroR : ∀ Q : SectionChange → Bool,
      (∀ c, c.type = ChangeType.removed → Q c = false) →
      (diffRemovedChanges (mkPathMap oldDoc.sections) (mkPathMap newDoc.sections)).countP Q = 0 := by
    intro Q hQ
    rw [List.countP_eq_zero]
    intro c hc
    simp [hQ c (mem_diffRemovedChanges_shape hc)]
  have hzeroM : ∀ Q : SectionChange → Bool,
      (∀ c, c.type = ChangeType.modified ∨ c.type = ChangeType.moved → Q c = false) →
      (diffModifiedMovedChanges (mkPathMap oldDoc.sections) (mkPathMap newDoc.sections)).countP Q = 0 := by
    intro Q hQ
    rw [List.countP_eq_zero]
    intro c hc
    simp [hQ c (mem_diffModifiedMovedChanges_shape hc)]
  refine ⟨?_, ?_, ?_, ?_, ?_⟩
  · -- removed, old side: only the removed component contributes
    rw [List.countP_append, List.countP_append]
    rw [hzeroA _ (by intro c hc; simp [hc]), hzeroM _ (by
      intro c hc
      rcases hc with h | h <;> simp [h])]
    have : (diffRemovedChanges (mkPathMap oldDoc.sections) (mkPathMap newDoc.sections)).countP
        (fun c => decide (c.type = ChangeType.removed) && decide (c.oldPath = some p)) ≤ 1 := by
      unfold diffRemovedChanges
      apply countP_filterMap_keyed_le_one _ hndOld _ _ p
      intro a c hfa hQ
      by_cases hb : mapHas (mkPathMap newDoc.sections) a.1 = true
      · simp [hb] at hfa
      · simp only [hb, Bool.false_eq_true, if_false, Option.some.injEq] at hfa
        simp only [Bool.and_eq_true, decide_eq_true_eq] at hQ
        have := hQ.2
        rw [← hfa] at this
        simpa using this
    omega
  · -- modified, old side
    rw [List.countP_append, List.countP_append]
    rw [hzeroA _ (by intro c hc; simp [hc]), hzeroR _ (by intro c hc; simp [hc])]
    have : (diffModifiedMovedChanges (mkPathMap oldDoc.sections) (mkPathMap newDoc.sections)).countP
        (fun c => decide (c.type = ChangeType.modified) && decide (c.oldPath = some p)) ≤ 1 := by
      unfold diffModifiedMovedChanges
      apply countP_filterMap_keyed_le_one _ hndOld _ _ p
      intro a c hfa hQ
      simp only [Bool.and_eq_true, decide_eq_true_eq] at hQ
      cases hg : mapGet (mkPathMap newDoc.sections) a.1 with
      | some q =>
          rw [hg] at hfa
          by_cases hc : a.2.content ≠ q.content <;> simp [hc] at hfa
          rw [← hfa] at hQ
          simpa using hQ.2
      | none =>
          rw [hg] at hfa
          cases hm : findMovedSection a.2 (mkPathMap newDoc.sections) with
          | some mv =>
              rw [hm] at hfa
              simp at hfa
              rw [← hfa] at hQ
              simp at hQ
          | none => rw [hm] at hfa; simp at hfa
    omega
  · -- moved, old side
    rw [List.countP_append, List.countP_append]
    rw [hzeroA _ (by intro c hc; simp [hc]), hzeroR _ (by intro c hc; simp [hc])]
    have : (diffModifiedMovedChanges (mkPathMap oldDoc.sections) (mkPathMap newDoc.sections)).countP
        (fun c => decide (c.type = ChangeType.moved) && decide (c.oldPath = some p)) ≤ 1 := by
      unfold diffModifiedMovedChanges
      apply countP_filterMap_keyed_le_one _ hndOld _ _ p
      intro a c hfa hQ
      simp only [Bool.and_eq_true, decide_eq_true_eq] at hQ
      cases hg : mapGet (mkPathMap newDoc.sections) a.1 with
      | some q =>
          rw [hg] at hfa
          by_cases hc : a.2.content ≠ q.content <;> simp [hc] at hfa
          rw [← hfa] at hQ
          simp at hQ
      | none =>
          rw [hg] at hfa
          cases hm : findMovedSection a.2 (mkPathMap newDoc.sections) with
          | some mv =>
              rw [hm] at hfa
              simp at hfa
              rw [← hfa] at hQ
              simpa using hQ.2
          | none => rw [hm] at hfa; simp at hfa
    omega
  · -- added, new side
    rw [List.countP_append, List.countP_append]
    rw [hzeroR _ (by intro c hc; simp [hc]), hzeroM _ (by
      intro c hc
      rcases hc with h | h <;> simp [h])]
    have : (diffAddedChanges (mkPathMap oldDoc.sections) (mkPathMap newDoc.sections)).countP
        (fun c => decide (c.type = ChangeType.added) && decide (c.newPath = some p)) ≤ 1 := by
      unfold diffAddedChanges
      apply countP_filterMap_keyed_le_one _ hndNew _ _ p
      intro a c hfa hQ
      by_cases hb : mapHas (mkPathMap oldDoc.sections) a.1 = true
      · simp [hb] at hfa
      · simp only [hb, Bool.false_eq_true, if_false, Option.some.injEq] at hfa
        simp only [Bool.and_eq_true, decide_eq_true_eq] at hQ
        have := hQ.2
        rw [← hfa] at this
        simpa using this
    omega
  · -- modified, new side
    rw [List.countP_append, List.countP_append]
    rw [hzeroA _ (by intro c hc; simp [hc]), hzeroR _ (by intro c hc; simp [hc])]
    have : (diffModifiedMovedChanges (mkPathMap oldDoc.sections) (mkPathMap newDoc.sections)).countP
        (fun c => decide (c.type = ChangeType.modified) && decide (c.newPath = some p)) ≤ 1 := by
      unfold diffModifiedMovedChanges
      apply countP_filterMap_keyed_le_one _ hndOld _ _ p
      intro a c hfa hQ
      simp only [Bool.and_eq_true, decide_eq_true_eq] at hQ
      cases hg : mapGet (mkPathMap newDoc.sections) a.1 with
      | some q =>
          rw [hg] at hfa
          by_cases hc : a.2.content ≠ q.content <;> simp [hc] at hfa
          rw [← hfa] at hQ
          simpa using hQ.2
      | none =>
          rw [hg] at hfa
          cases hm : findMovedSection a.2 (mkPathMap newDoc.sections) with
          | some mv =>
              rw [hm] at hfa
              simp at hfa
              rw [← hfa] at hQ
              simp at hQ
          | none => rw [hm] at hfa; simp at hfa
    omega

/-! ## C1: move detection does not reclassify -/

/-- C1 (amended).  When an old-only section has a high-similarity match in
the new map, `computeSemanticDiff` emits a `moved` record *in addition to*
the `removed` record for the old path and (when the target path is new-only)
the `added` record for the new path: nothing is reclassified into a single
record. -/
theorem moved_record_coexists_with_add_remove
    (oldDoc newDoc : DocDocument) (p : String) (oldS movedTo : DocSection)
    (hmem : (p, oldS) ∈ mkPathMap oldDoc.sections)
    (hnotnew : mapHas (mkPathMap newDoc.sections) p = false)
    (hfind : findMovedSection oldS (mkPathMap newDoc.sections) = some movedTo)
    (hnotold : mapHas (mkPathMap oldDoc.sections) movedTo.path = false) :
    ({ type := ChangeType.removed, oldPath := some p,
       oldHeading := some oldS.heading } : SectionChange) ∈
        (computeSemanticDiff oldDoc newDoc).sections ∧
    ({ type := ChangeType.moved, oldPath := some p, newPath := some movedTo.path,
       oldHeading := some oldS.heading, newHeading := some movedTo.heading } : SectionChange) ∈
        (computeSemanticDiff oldDoc newDoc).sections ∧
    ({ type := ChangeType.added, newPath := some movedTo.path,
       newHeading := some movedTo.heading } : SectionChange) ∈
        (computeSemanticDiff oldDoc newDoc).sections := by
  have hsec : (computeSemanticDiff oldDoc newDoc).sections =
      diffAddedChanges (mkPathMap oldDoc.sections) (mkPathMap newDoc.sections) ++
      diffRemovedChanges (mkPathMap oldDoc.sections) (mkPathMap newDoc.sections) ++
      diffModifiedMovedChanges (mkPathMap oldDoc.sections) (mkPathMap newDoc.sections) := rfl
  rw [hsec]
  refine ⟨?_, ?_, ?_⟩
  · -- removed record
    refine List.mem_append.mpr (Or.inl (List.mem_append.mpr (Or.inr ?_)))
    unfold diffRemovedChanges
    exact List.mem_filterMap.mpr ⟨(p, oldS), hmem, by simp [hnotnew]⟩
  · -- moved record
    refine List.mem_append.mpr (Or.inr ?_)
    unfold diffModifiedMovedChanges
    refine List.mem_filterMap.mpr ⟨(p, oldS), hmem, ?_⟩
    have hget : mapGet (mkPathMap newDoc.sections) p = none :=
      mapGet_eq_none_of_not_has hnotnew
    simp only [hget, hfind]
  · -- added record
    refine List.mem_append.mpr (Or.inl (List.mem_append.mpr (Or.inl ?_)))
    unfold findMovedSection at hfind
    obtain ⟨pr, hprf, hpr2⟩ := Option.map_eq_some'.mp hfind
    have hprm : pr ∈ mkPathMap newDoc.sections := List.mem_of_find?_eq_some hprf
    have hkey : pr.1 = movedTo.path := by
      rw [mem_mkPathMap_key_eq_path newDoc.sections pr hprm, hpr2]
    unfold diffAddedChanges
    refine List.mem_filterMap.mpr ⟨pr, hprm, ?_⟩
    rw [hkey]
    simp only [hnotold, Bool.false_eq_true, if_false, hpr2]

unseal Rat.mul Rat.inv Rat.add in
/-- C1 (counterexample).  The move-detection claim fails on the code twice
over.  On the specification's own example (`a/b` with `The quick brown fox
jumps` against new-only `x/y` with `The quick brown fox leaps`) the word-set
Jaccard similarity is `2/3`, which does not exceed `0.8`, so the diff is an
add+remove pair with no `moved` record at all.  And on a pair whose
similarity does exceed `0.8`, the diff holds three records — `added`,
`removed` and `moved` — not a single `moved` record. -/
theorem specExample_no_single_moved_record :
    computeSimilarity "The quick brown fox jumps" "The quick brown fox leaps" = 2/3 ∧
    (computeSemanticDiff specExampleOldDoc specExampleNewDoc).stats =
      { added := 1, removed := 1, modified := 0, moved := 0 } ∧
    (computeSemanticDiff specExampleOldDoc specExampleNewDoc).sections.countP
      (fun c => decide (c.type = ChangeType.moved)) = 0 ∧
    computeSimilarity highSimOldSection.content highSimNewSection.content > 8/10 ∧
    (computeSemanticDiff highSimOldDoc highSimNewDoc).stats =
      { added := 1, removed := 1, modified := 0, moved := 1 } ∧
    (computeSemanticDiff highSimOldDoc highSimNewDoc).sections.length = 3 := by decide

unseal Rat.mul Rat.inv Rat.add in
/-- C1 (witness).  The amended statement applied to the concrete
high-similarity pair. -/
theorem moved_record_coexists_witness :
    ({ type := ChangeType.removed, oldPath := some "a/b",
       oldHeading := some "B" } : SectionChange) ∈
        (computeSemanticDiff highSimOldDoc highSimNewDoc).sections ∧
    ({ type := ChangeType.moved, oldPath := some "a/b", newPath := some "x/y",
       oldHeading := some "B", newHeading := some "Y" } : SectionChange) ∈
        (computeSemanticDiff highSimOldDoc highSimNewDoc).sections ∧
    ({ type := ChangeType.added, newPath := some "x/y",
       newHeading := some "Y" } : SectionChange) ∈
        (computeSemanticDiff highSimOldDoc highSimNewDoc).sections :=
  moved_record_coexists_with_add_remove highSimOldDoc highSimNewDoc "a/b"
    highSimOldSection highSimNewSection (by decide) (by decide) (by decide) (by decide)

unseal Rat.mul Rat.inv Rat.add in
/-- C4 (counterexample).  In the diff of `highSimOldDoc` against
`highSimNewDoc` (one section whose content moved from `a/b` to `x/y` with
similarity `1 > 0.8`), the old path `a/b` occurs as the old path of two
change records and the new path `x/y` as the new path of two change records,
so the no-double-counting claim fails. -/
theorem old_path_double_counted_counterexample :
    (computeSemanticDiff highSimOldDoc highSimNewDoc).sections.countP
      (fun c => decide (c.oldPath = some "a/b")) = 2 ∧
    (computeSemanticDiff highSimOldDoc highSimNewDoc).sections.countP
      (fun c => decide (c.newPath = some "x/y")) = 2 := by decide

/-! ## C7: heading path assignment -/

theorem visitTree_paths (hashFn : String → String) (nodes : List MdNode) :
    ∀ cur sc tc cc lc,
      ((visitTree hashFn nodes cur sc tc cc lc).1.map (fun s => s.path)) =
        specHeadingPathsAux cur (headingNodes nodes) := by
  induction nodes with
  | nil => intro cur sc tc cc lc; simp [visitTree, headingNodes, specHeadingPathsAux]
  | cons n rest ih =>
      intro cur sc tc cc lc
      cases n <;>
        simp [visitTree, headingNodes, specHeadingPathsAux, ih, List.filterMap_cons]

/-- C7 (amended).  The parser does not return to the nearest shallower open
ancestor: a level-1 heading resets the path to its own slug, and every other
heading appends its slug to the full path of the *immediately preceding*
heading, whatever the nesting levels.  The section paths equal the reference
recursion `specHeadingPaths` over the heading sequence. -/
theorem parseMarkdown_paths_follow_previous_heading
    (hashFn : String → String) (content : String) (nodes : List MdNode)
    (filePath : String) :
    (parseMarkdown hashFn content nodes filePath).sections.map (fun s => s.path) =
      specHeadingPaths (headingNodes nodes) := by
  unfold parseMarkdown specHeadingPaths
  exact visitTree_paths hashFn nodes "" 0 0 0 0

/-- C7 (counterexample).  For the heading sequence H1 `A`, H2 `B`, H3 `C`,
H2 `D` the fourth section's path is `a/b/c/d` — the preceding H2/H3 slugs
are retained — not the `a/d` the claim asserts. -/
theorem heading_path_retains_deeper_slugs :
    ((parseMarkdown (fun _ => "") ""
        [.heading 1 "A", .heading 2 "B", .heading 3 "C", .heading 2 "D"] "f.md").sections.map
      (fun s => s.path)) = ["a", "a/b", "a/b/c", "a/b/c/d"] ∧
    ((parseMarkdown (fun _ => "") ""
        [.heading 1 "A", .heading 2 "B", .heading 3 "C", .heading 2 "D"] "f.md").sections.map
      (fun s => s.path)).get? 3 ≠ some "a/d" := by decide

/-! ## C10: hyphenated fragment anchors are flagged broken -/

/-- C10.  There is a document — `quickStartDoc`, one section whose slug is
`quick-start` and one fragment link `#quick-start` aimed exactly at that
slug — for which link validation reports a `Broken internal link` warning:
the fragment resolver turns every hyphen into a slash (`quick/start`), which
cannot match the hyphenated single-segment section path. -/
theorem hyphenated_anchor_flagged_broken :
    quickStartDoc.sections.map (fun s => s.path) = [slugify "Quick Start"] ∧
    slugify "Quick Start" = "quick-start" ∧
    quickStartDoc.links.map (fun l => l.url) = ["#" ++ "quick-start"] ∧
    quickStartDoc.links.map (fun l => l.targetPath) = [some "quick/start"] ∧
    validateLinks quickStartDoc =
      [{ type := FindingType.warning, category := "link",
         message := "Broken internal link: #quick-start" }] := by decide

/-! ## C2: the verdict guardrail quantifies over raw risks -/

/-- C2 (amended).  Whenever the review reaches rendering with verdict
`changes_requested` (the verdict produced by the guardrail block of
`postReviewResults`), either some finding has severity error or some risk of
the *raw* model-supplied risk list has severity high.  The guardrail runs
before the move/reorder reclassification and speculative-risk filtering of
`generateV2PRComment`, so the retained risk set plays no part in it (see the
counterexample). -/
theorem changes_requested_implies_error_or_raw_high_risk
    (v2Review : Option V2ReviewOutput) (findings : List ReviewFinding)
    (h : (postReviewVerdict v2Review findings).1 = VerdictKind.changes_requested) :
    findings.any (fun f => decide (f.type = FindingType.error)) = true ∨
    (match v2Review with
     | some r => r.keyRisks
     | none => []).any (fun r => r.severity == "high") = true := by
  by_cases he : findings.any (fun f => decide (f.type = FindingType.error)) = true
  · exact Or.inl he
  by_cases hh : (match v2Review with
    | some r => r.keyRisks
    | none => []).any (fun r => r.severity == "high") = true
  · exact Or.inr hh
  exfalso
  have he' : findings.any (fun f => decide (f.type = FindingType.error)) = false := by
    simpa using he
  cases v2Review with
  | some r =>
      have hh' : r.keyRisks.any (fun r => r.severity == "high") = false := by
        simpa using hh
      simp only [postReviewVerdict, he', hh'] at h
      by_cases hv : r.verdict.verdict = VerdictKind.changes_requested
      · simp [hv] at h
      · simp [hv] at h
  | none =>
      have hlen : (findings.filter (fun f => decide (f.type = FindingType.error))).length = 0 := by
        have hnil : findings.filter (fun f => decide (f.type = FindingType.error)) = [] := by
          rw [List.filter_eq_nil_iff]
          intro a ha hc
          rw [List.any_eq_false] at he'
          exact absurd hc (by simpa using he' a ha)
        rw [hnil]
        rfl
      simp only [postReviewVerdict, he', hlen] at h
      by_cases hw : 2 < (findings.filter (fun f => decide (f.type = FindingType.warning))).length <;>
        simp [hw] at h

/-- C2 (witness).  The amended guardrail statement applied at a concrete
review whose raw risk list carries a high-severity item. -/
theorem changes_requested_guardrail_witness :
    ([] : List ReviewFinding).any (fun f => decide (f.type = FindingType.error)) = true ∨
    (match some speculativeHighRiskReview with
     | some r => r.keyRisks
     | none => ([] : List RiskItem)).any (fun r => r.severity == "high") = true :=
  changes_requested_implies_error_or_raw_high_risk
    (some speculativeHighRiskReview) [] (by decide)

unseal Rat.mul Rat.inv Rat.add in
/-- C2 (counterexample).  A review with verdict `changes_requested`, no
findings, and one raw risk of severity `high` in the generic category
`security` with empty evidence: the guardrail sees the raw high risk and
leaves the verdict at `changes_requested` (handing the review unchanged to
rendering), yet the retained risk set — after the move/reorder and
speculative-risk passes — is empty, so no *retained* risk has severity high
and no finding has severity error, contradicting the claim. -/
theorem guardrail_uses_raw_risks_counterexample :
    (postReviewVerdict (some speculativeHighRiskReview) []).1 =
      VerdictKind.changes_requested ∧
    (postReviewVerdict (some speculativeHighRiskReview) []).2.2 =
      some speculativeHighRiskReview ∧
    ([] : List ReviewFinding).any (fun f => decide (f.type = FindingType.error)) = false ∧
    v2CommentKeyRisks emptyDiff [] speculativeHighRiskReview.keyRisks = [] := by decide

/-! ## C3: the fallback verdict is a pure function of finding counts -/

/-- C3.  The deterministic fallback's verdict block is a pure function of
the error/warning counts: any error gives `changes_requested` at raw
confidence `0.95`; otherwise more than three warnings give `commented` at
`0.7`; otherwise at least one warning gives `approved` at `0.8`; otherwise
`approved` at `0.9`.  The synthesized review carries exactly that verdict,
and with no model output (`v2Review = none`) the posted verdict is
`changes_requested` whenever the findings contain an error. -/
theorem fallbackVerdict_pure_function_of_counts
    (findings : List ReviewFinding) (prContext : PRContext)
    (docType : DocTypeClassification) (semanticDiff : SemanticDiff)
    (codeFiles : Option (List CodeFileInfo)) :
    ((findings.filter (fun f => decide (f.type = FindingType.error))).length > 0 →
      (fallbackVerdictRaw findings).1 = VerdictKind.changes_requested ∧
      (fallbackVerdictRaw findings).2.1 = 95/100) ∧
    ((findings.filter (fun f => decide (f.type = FindingType.error))).length = 0 →
     (findings.filter (fun f => decide (f.type = FindingType.warning))).length > 3 →
      (fallbackVerdictRaw findings).1 = VerdictKind.commented ∧
      (fallbackVerdictRaw findings).2.1 = 7/10) ∧
    ((findings.filter (fun f => decide (f.type = FindingType.error))).length = 0 →
     0 < (findings.filter (fun f => decide (f.type = FindingType.warning))).length →
     (findings.filter (fun f => decide (f.type = FindingType.warning))).length ≤ 3 →
      (fallbackVerdictRaw findings).1 = VerdictKind.approved ∧
      (fallbackVerdictRaw findings).2.1 = 8/10) ∧
    ((findings.filter (fun f => decide (f.type = FindingType.error))).length = 0 →
     (findings.filter (fun f => decide (f.type = FindingType.warning))).length = 0 →
      (fallbackVerdictRaw findings).1 = VerdictKind.approved ∧
      (fallbackVerdictRaw findings).2.1 = 9/10) ∧
    ((generateDeterministicFallback prContext docType semanticDiff findings
        codeFiles).verdict.verdict = (fallbackVerdictRaw findings).1) ∧
    ((findings.filter (fun f => decide (f.type = FindingType.error))).length > 0 →
      (generateDeterministicFallback prContext docType semanticDiff findings
        codeFiles).verdict.verdict = VerdictKind.changes_requested ∧
      (postReviewVerdict none findings).1 = VerdictKind.changes_requested) := by
  have hany : (findings.filter (fun f => decide (f.type = FindingType.error))).length > 0 →
      findings.any (fun f => decide (f.type = FindingType.error)) = true := by
    intro hp
    have hne : findings.filter (fun f => decide (f.type = FindingType.error)) ≠ [] := by
      intro h0
      rw [h0] at hp
      simp at hp
    obtain ⟨f, hf⟩ := List.exists_mem_of_ne_nil _ hne
    have hmem := List.mem_filter.mp hf
    exact List.any_eq_true.mpr ⟨f, hmem.1, hmem.2⟩
  refine ⟨?_, ?_, ?_, ?_, ?_, ?_⟩
  · intro he
    unfold fallbackVerdictRaw
    rw [if_pos he]
    exact ⟨rfl, rfl⟩
  · intro he hw
    unfold fallbackVerdictRaw
    rw [if_neg (by omega), if_pos hw]
    exact ⟨rfl, rfl⟩
  · intro he hw1 hw3
    unfold fallbackVerdictRaw
    rw [if_neg (by omega), if_neg (by omega), if_pos hw1]
    exact ⟨rfl, rfl⟩
  · intro he hw
    unfold fallbackVerdictRaw
    rw [if_neg (by omega), if_neg (by omega), if_neg (by omega)]
    exact ⟨rfl, rfl⟩
  · rfl
  · intro he
    constructor
    · show (fallbackVerdictRaw findings).1 = VerdictKind.changes_requested
      unfold fallbackVerdictRaw
      rw [if_pos he]
    · unfold postReviewVerdict
      have herr := hany he
      rw [if_pos he]
      simp [herr]

unseal Rat.mul Rat.inv Rat.add in
/-- C3 (witness).  The purity statement applied at a single error finding:
the raw verdict is `changes_requested` at confidence `0.95`, and the
review synthesized with no model output carries it. -/
theorem fallbackVerdict_counts_witness :
    (fallbackVerdictRaw [oneErrorFinding]).1 = VerdictKind.changes_requested ∧
    (fallbackVerdictRaw [oneErrorFinding]).2.1 = 95/100 :=
  (fallbackVerdict_pure_function_of_counts [oneErrorFinding] simplePRContext
    otherDocType emptyDiff none).1 (by decide)

/-! ## C5: verdict confidence bounds -/

theorem fallbackVerdictRaw_confidence_bounds (findings : List ReviewFinding) :
    0 ≤ (fallbackVerdictRaw findings).2.1 ∧ (fallbackVerdictRaw findings).2.1 ≤ 1 := by
  simp only [fallbackVerdictRaw]
  split_ifs <;> norm_num

theorem calibrateFallbackConfidence_bounds (v : VerdictKind) (q : ℚ)
    (d m : Bool) (n : Nat) (h0 : 0 ≤ q) (h1 : q ≤ 1) :
    0 ≤ calibrateFallbackConfidence v q d m n ∧
      calibrateFallbackConfidence v q d m n ≤ 1 ∧
      (v = VerdictKind.approved → calibrateFallbackConfidence v q d m n ≤ 82/100) := by
  simp only [calibrateFallbackConfidence]
  refine ⟨?_, ?_, ?_⟩
  · split_ifs <;> simp [le_min_iff, h0] <;> norm_num
  · split_ifs <;> simp [min_le_iff, h1] <;> norm_num
  · intro hv
    split_ifs <;> simp_all [min_le_iff] <;> norm_num

theorem calibrateParsedConfidence_bounds (v : VerdictKind) (q : ℚ) (n : Nat) :
    0 ≤ calibrateParsedConfidence v q n ∧ calibrateParsedConfidence v q n ≤ 1 ∧
      (v = VerdictKind.approved → calibrateParsedConfidence v q n ≤ 82/100) := by
  simp only [calibrateParsedConfidence]
  refine ⟨?_, ?_, ?_⟩
  · split_ifs <;> simp [le_min_iff, le_max_iff] <;> norm_num
  · split_ifs <;> simp [min_le_iff, max_le_iff, le_min_iff] <;> norm_num
  · intro hv
    split_ifs <;> norm_num [min_le_iff]

/-- C5.  On the model-assisted path (any accepted `parseV2Response` output)
and on the deterministic fallback path, the final verdict confidence lies in
`[0, 1]`, and whenever the verdict is `approved` it is at most `0.82`. -/
theorem verdict_confidence_bounds
    (parseJson : String → Option Json) (aiResponse : String) (out : V2ReviewOutput)
    (prContext : PRContext) (docType : DocTypeClassification)
    (semanticDiff : SemanticDiff) (findings : List ReviewFinding)
    (codeFiles : Option (List CodeFileInfo))
    (h : parseV2Response parseJson aiResponse = some out) :
    (0 ≤ out.verdict.confidence ∧ out.verdict.confidence ≤ 1 ∧
      (out.verdict.verdict = VerdictKind.approved →
        out.verdict.confidence ≤ 82/100)) ∧
    (0 ≤ (generateDeterministicFallback prContext docType semanticDiff findings
        codeFiles).verdict.confidence ∧
     (generateDeterministicFallback prContext docType semanticDiff findings
        codeFiles).verdict.confidence ≤ 1 ∧
     ((generateDeterministicFallback prContext docType semanticDiff findings
        codeFiles).verdict.verdict = VerdictKind.approved →
      (generateDeterministicFallback prContext docType semanticDiff findings
        codeFiles).verdict.confidence ≤ 82/100)) := by
  constructor
  · simp only [parseV2Response] at h
    split at h
    · simp at h
    split at h
    · simp at h
    split at h
    · simp at h
    split at h
    · simp at h
    split at h
    · simp at h
    rename_i verdict hverdict
    split at h
    · split at h
      · simp at h
      split at h
      · simp at h
      rw [Option.some.injEq] at h
      subst h
      simp only []
      exact calibrateParsedConfidence_bounds _ _ _
    · simp at h
  · obtain ⟨h0, h1⟩ := fallbackVerdictRaw_confidence_bounds findings
    have hb := calibrateFallbackConfidence_bounds (fallbackVerdictRaw findings).1
      (fallbackVerdictRaw findings).2.1
      (match codeFiles with
       | some cf => decide (cf.length = 0)
       | none => false)
      (decide ((findings.filter (fun f => decide (f.type = FindingType.warning))).length > 0 ∧
        (findings.filter (fun f => decide (f.type = FindingType.error))).length = 0))
      ((findings.filter (fun f => decide (f.type = FindingType.error))).length) h0 h1
    exact hb

unseal Rat.mul Rat.inv Rat.add in
/-- C5 (witness).  The bounds applied at a concrete accepted model response
(verdict `approved`, raw confidence `1`, capped to `0.82`) together with a
concrete fallback run. -/
theorem verdict_confidence_bounds_witness :
    (0 ≤ ({ prIntent := "a", changeOverview := "b", keyRisks := [], checklist := [],
            prBodySuggestion := { sections := [], updates := [] },
            verdict := { verdict := VerdictKind.approved, confidence := 82/100,
                         summary := "" } } : V2ReviewOutput).verdict.confidence ∧
      ({ prIntent := "a", changeOverview := "b", keyRisks := [], checklist := [],
         prBodySuggestion := { sections := [], updates := [] },
         verdict := { verdict := VerdictKind.approved, confidence := 82/100,
                      summary := "" } } : V2ReviewOutput).verdict.confidence ≤ 1 ∧
      (({ prIntent := "a", changeOverview := "b", keyRisks := [], checklist := [],
          prBodySuggestion := { sections := [], updates := [] },
          verdict := { verdict := VerdictKind.approved, confidence := 82/100,
                       summary := "" } } : V2ReviewOutput).verdict.verdict =
            VerdictKind.approved →
        ({ prIntent := "a", changeOverview := "b", keyRisks := [], checklist := [],
           prBodySuggestion := { sections := [], updates := [] },
           verdict := { verdict := VerdictKind.approved, confidence := 82/100,
                        summary := "" } } : V2ReviewOutput).verdict.confidence ≤ 82/100)) ∧
    (0 ≤ (generateDeterministicFallback simplePRContext otherDocType emptyDiff
        [oneErrorFinding] none).verdict.confidence ∧
     (generateDeterministicFallback simplePRContext otherDocType emptyDiff
        [oneErrorFinding] none).verdict.confidence ≤ 1 ∧
     ((generateDeterministicFallback simplePRContext otherDocType emptyDiff
        [oneErrorFinding] none).verdict.verdict = VerdictKind.approved →
      (generateDeterministicFallback simplePRContext otherDocType emptyDiff
        [oneErrorFinding] none).verdict.confidence ≤ 82/100)) :=
  verdict_confidence_bounds (fun _ => some approvedJson) "\x7bx\x7d" _
    simplePRContext otherDocType emptyDiff [oneErrorFinding] none (by decide)

/-! ## C6: classifier confidence -/

unseal Rat.mul Rat.inv Rat.add in
theorem DOC_TYPE_PATTERNS_weights_nonneg :
    ∀ g ∈ DOC_TYPE_PATTERNS, ∀ pw ∈ g.2, (0 : ℚ) ≤ pw.2 := by decide

theorem ite_zero_nonneg (b : Prop) [Decidable b] (x : ℚ) (hx : 0 ≤ x) :
    0 ≤ if b then x else 0 := by
  split
  · exact hx
  · exact le_refl 0

theorem patternScore_nonneg (ptest : String → String → Bool)
    (t a c : String) (pw : String × ℚ) (h : 0 ≤ pw.2) :
    0 ≤ patternScore ptest t a c pw := by
  unfold patternScore
  exact add_nonneg
    (add_nonneg (ite_zero_nonneg _ _ (by nlinarith)) (ite_zero_nonneg _ _ h))
    (ite_zero_nonneg _ _ (by nlinarith))

theorem classifyBaseScores_nonneg (ptest : String → String → Bool)
    (doc : DocDocument) :
    ∀ q ∈ classifyBaseScores ptest doc, 0 ≤ q.2 := by
  intro q hq
  obtain ⟨g, hg, hgq⟩ := List.mem_map.mp hq
  subst hgq
  apply List.sum_nonneg
  intro x hx
  obtain ⟨pw, hpw, hpx⟩ := List.mem_map.mp hx
  subst hpx
  exact patternScore_nonneg _ _ _ _ _ (DOC_TYPE_PATTERNS_weights_nonneg g hg pw hpw)

theorem bumpScore_nonneg {scores : List (String × ℚ)}
    (h : ∀ q ∈ scores, 0 ≤ q.2) {k : String} {δ : ℚ} (hδ : 0 ≤ δ) :
    ∀ q ∈ bumpScore scores k δ, 0 ≤ q.2 := by
  intro q hq
  obtain ⟨p, hp, hpq⟩ := List.mem_map.mp hq
  by_cases hk : p.1 = k
  · simp only [hk, if_true] at hpq
    subst hpq
    exact add_nonneg (h p hp) hδ
  · simp only [hk, if_false] at hpq
    subst hpq
    exact h p hp

theorem classifyScores_nonneg (ptest : String → String → Bool)
    (doc : DocDocument) :
    ∀ q ∈ classifyScores ptest doc, 0 ≤ q.2 := by
  have hbase := classifyBaseScores_nonneg ptest doc
  have ht5 : (0:ℚ) ≤ (doc.tables.length : ℚ) * (5/10) := by positivity
  have ht3 : (0:ℚ) ≤ (doc.tables.length : ℚ) * (3/10) := by positivity
  have hc3 : (0:ℚ) ≤ (doc.codeBlocks.length : ℚ) * (3/10) := by positivity
  have hc2 : (0:ℚ) ≤ (doc.codeBlocks.length : ℚ) * (2/10) := by positivity
  have hc4 : (0:ℚ) ≤ (doc.codeBlocks.length : ℚ) * (4/10) := by positivity
  by_cases hT : doc.tables.length > 0 <;> by_cases hC : doc.codeBlocks.length > 0
  · simp only [classifyScores, if_pos hT, if_pos hC]
    exact bumpScore_nonneg (bumpScore_nonneg (bumpScore_nonneg (bumpScore_nonneg
      (bumpScore_nonneg (bumpScore_nonneg hbase ht5) ht3) hc3) hc3) hc2) hc4
  · simp only [classifyScores, if_pos hT, if_neg hC]
    exact bumpScore_nonneg (bumpScore_nonneg hbase ht5) ht3
  · simp only [classifyScores, if_neg hT, if_pos hC]
    exact bumpScore_nonneg (bumpScore_nonneg (bumpScore_nonneg (bumpScore_nonneg
      hbase hc3) hc3) hc2) hc4
  · simp only [classifyScores, if_neg hT, if_neg hC]
    exact hbase

theorem foldl_maxEntry_nonneg (l : List (String × ℚ)) :
    ∀ acc : String × ℚ, 0 ≤ acc.2 →
      0 ≤ (l.foldl (fun mt p => if p.2 > mt.2 then (p.1, p.2) else mt) acc).2 := by
  induction l with
  | nil => intro acc h; simpa using h
  | cons p t ih =>
      intro acc h
      simp only [List.foldl_cons]
      by_cases hc : p.2 > acc.2
      · exact ih _ (by rw [if_pos hc]; exact le_of_lt (lt_of_le_of_lt h hc))
      · exact ih _ (by rw [if_neg hc]; exact h)

/-- C6.  `classifyDocument` returns confidence
`min(winningScore / totalScore + 0.3, 1)` when the total genre score is
positive and exactly `0` when every genre scored `0`; hence the confidence
always lies in `[0, 1]` and is at least `0.3` whenever any genre scored
above zero. -/
theorem classifyDocument_confidence_spec (ptest : String → String → Bool)
    (doc : DocDocument) :
    ((classifyDocument ptest doc).confidence =
      (if 0 < ((classifyScores ptest doc).map (fun p => p.2)).sum then
        min (((classifyScores ptest doc).foldl
            (fun mt p => if p.2 > mt.2 then (p.1, p.2) else mt) ("other", 0)).2 /
              ((classifyScores ptest doc).map (fun p => p.2)).sum + 3/10) 1
      else 0)) ∧
    0 ≤ (classifyDocument ptest doc).confidence ∧
    (classifyDocument ptest doc).confidence ≤ 1 ∧
    ((∀ q ∈ classifyScores ptest doc, q.2 = 0) →
      (classifyDocument ptest doc).confidence = 0) ∧
    ((∃ q ∈ classifyScores ptest doc, 0 < q.2) →
      3/10 ≤ (classifyDocument ptest doc).confidence) := by
  have hnn := classifyScores_nonneg ptest doc
  have hnnmap : ∀ x ∈ (classifyScores ptest doc).map (fun p => p.2), 0 ≤ x := by
    intro x hx
    obtain ⟨p, hp, hpx⟩ := List.mem_map.mp hx
    subst hpx
    exact hnn p hp
  have hmax : 0 ≤ ((classifyScores ptest doc).foldl
      (fun mt p => if p.2 > mt.2 then (p.1, p.2) else mt) ("other", 0)).2 :=
    foldl_maxEntry_nonneg _ _ (le_refl 0)
  have heq : (classifyDocument ptest doc).confidence =
      (if 0 < ((classifyScores ptest doc).map (fun p => p.2)).sum then
        min (((classifyScores ptest doc).foldl
            (fun mt p => if p.2 > mt.2 then (p.1, p.2) else mt) ("other", 0)).2 /
              ((classifyScores ptest doc).map (fun p => p.2)).sum + 3/10) 1
      else 0) := rfl
  refine ⟨heq, ?_, ?_, ?_, ?_⟩
  · rw [heq]
    split_ifs with ht
    · exact le_min (by positivity) (by norm_num)
    · exact le_refl 0
  · rw [heq]
    split_ifs with ht
    · exact min_le_right _ _
    · norm_num
  · intro hz
    rw [heq]
    have hts : ((classifyScores ptest doc).map (fun p => p.2)).sum = 0 := by
      apply List.sum_eq_zero
      intro x hx
      obtain ⟨p, hp, hpx⟩ := List.mem_map.mp hx
      subst hpx
      exact hz p hp
    rw [hts]
    norm_num
  · intro hex
    obtain ⟨q, hq, hqpos⟩ := hex
    have hts : 0 < ((classifyScores ptest doc).map (fun p => p.2)).sum := by
      have hmem : q.2 ∈ (classifyScores ptest doc).map (fun p => p.2) :=
        List.mem_map.mpr ⟨q, hq, rfl⟩
      exact lt_of_lt_of_le hqpos (List.single_le_sum hnnmap _ hmem)
    rw [heq, if_pos hts]
    refine le_min ?_ (by norm_num)
    have : 0 ≤ ((classifyScores ptest doc).foldl
        (fun mt p => if p.2 > mt.2 then (p.1, p.2) else mt) ("other", 0)).2 /
          ((classifyScores ptest doc).map (fun p => p.2)).sum :=
      div_nonneg hmax (le_of_lt hts)
    linarith

unseal Rat.mul Rat.inv Rat.add in
/-- C6 (witness).  The confidence specification applied to a document whose
only classifier signal is one table (the pattern test rejects everything):
some genre scores above zero, so the confidence is at least `0.3`. -/
theorem classifyDocument_confidence_witness :
    3/10 ≤ (classifyDocument ptestNever oneTableDoc).confidence :=
  (classifyDocument_confidence_spec ptestNever oneTableDoc).2.2.2.2 (by decide)

/-! ## C8: defensive parsing of the raw model answer -/

/-- C8.  `parseV2Response` returns `none` whenever the raw answer has no
brace-delimited span, the span fails to parse, a required field (`prIntent`,
`changeOverview`, `verdict`) is missing or holds a falsy value, the verdict
value is a non-empty string outside the fixed enum, or the confidence field
is present but is not a number in `[0, 1]`. -/
theorem parseV2Response_rejects_malformed (parseJson : String → Option Json)
    (aiResponse : String) :
    (extractJsonSpan aiResponse = none →
       parseV2Response parseJson aiResponse = none) ∧
    (∀ span, extractJsonSpan aiResponse = some span → parseJson span = none →
       parseV2Response parseJson aiResponse = none) ∧
    (∀ span parsed, extractJsonSpan aiResponse = some span →
       parseJson span = some parsed →
       ((Json.get parsed "prIntent" = none ∨
           ∃ j, Json.get parsed "prIntent" = some j ∧ j.truthy = false) ∨
        (Json.get parsed "changeOverview" = none ∨
           ∃ j, Json.get parsed "changeOverview" = some j ∧ j.truthy = false) ∨
        (Json.get parsed "verdict" = none ∨
           ∃ j, Json.get parsed "verdict" = some j ∧ j.truthy = false)) →
       parseV2Response parseJson aiResponse = none) ∧
    (∀ span parsed s, extractJsonSpan aiResponse = some span →
       parseJson span = some parsed →
       Json.get ((Json.get parsed "verdict").getD Json.null) "verdict" =
         some (Json.str s) →
       s ≠ "" → ¬ s ∈ validVerdicts →
       parseV2Response parseJson aiResponse = none) ∧
    (∀ span parsed q, extractJsonSpan aiResponse = some span →
       parseJson span = some parsed →
       Json.get ((Json.get parsed "verdict").getD Json.null) "confidence" =
         some (Json.num q) →
       (q < 0 ∨ q > 1) →
       parseV2Response parseJson aiResponse = none) ∧
    (∀ span parsed c, extractJsonSpan aiResponse = some span →
       parseJson span = some parsed →
       Json.get ((Json.get parsed "verdict").getD Json.null) "confidence" = some c →
       c ≠ Json.null → (∀ q, c ≠ Json.num q) →
       parseV2Response parseJson aiResponse = none) := by
  refine ⟨?_, ?_, ?_, ?_, ?_, ?_⟩
  · intro h
    simp [parseV2Response, h]
  · intro span hspan hp
    simp [parseV2Response, hspan, hp]
  · intro span parsed hspan hp hmiss
    have hft : jsonTruthy (Json.get parsed "prIntent") = false ∨
        jsonTruthy (Json.get parsed "changeOverview") = false ∨
        jsonTruthy (Json.get parsed "verdict") = false := by
      rcases hmiss with (h | ⟨j, hj, hjf⟩) | (h | ⟨j, hj, hjf⟩) | (h | ⟨j, hj, hjf⟩)
      · exact Or.inl (by rw [h]; rfl)
      · exact Or.inl (by rw [hj]; simpa [jsonTruthy] using hjf)
      · exact Or.inr (Or.inl (by rw [h]; rfl))
      · exact Or.inr (Or.inl (by rw [hj]; simpa [jsonTruthy] using hjf))
      · exact Or.inr (Or.inr (by rw [h]; rfl))
      · exact Or.inr (Or.inr (by rw [hj]; simpa [jsonTruthy] using hjf))
    rcases hft with h | h | h <;>
      simp [parseV2Response, hspan, hp, h]
  · intro span parsed s hspan hp hw hsne hnv
    have hk : verdictKindOfString s = none := by
      simp only [validVerdicts, List.mem_cons, List.not_mem_nil, or_false] at hnv
      push_neg at hnv
      unfold verdictKindOfString
      rw [if_neg hnv.1, if_neg hnv.2.1, if_neg hnv.2.2]
    simp [parseV2Response, hspan, hp, hw, Json.truthy, hsne, hk]
  · intro span parsed q hspan hp hc hq
    simp only [parseV2Response, hspan, hp]
    split_ifs
    · rfl
    · rfl
    · split
      · rfl
      · simp only [hc]
        rw [if_pos hq]
  · intro span parsed c hspan hp hc hc0 hcn
    cases c with
    | null => exact absurd rfl hc0
    | num q => exact absurd rfl (hcn q)
    | bool b =>
        simp only [parseV2Response, hspan, hp]
        split_ifs
        · rfl
        · rfl
        · split
          · rfl
          · simp [hc]
    | str s =>
        simp only [parseV2Response, hspan, hp]
        split_ifs
        · rfl
        · rfl
        · split
          · rfl
          · simp [hc]
    | arr xs =>
        simp only [parseV2Response, hspan, hp]
        split_ifs
        · rfl
        · rfl
        · split
          · rfl
          · simp [hc]
    | obj kvs =>
        simp only [parseV2Response, hspan, hp]
        split_ifs
        · rfl
        · rfl
        · split
          · rfl
          · simp [hc]

/-- C8 (witness).  The rejection theorem applied concretely: a response with
no brace span is rejected, a parsed object missing `prIntent` is rejected,
and a parsed object whose `prIntent` is present but falsy (the empty string)
is rejected. -/
theorem parseV2Response_rejects_witness :
    parseV2Response (fun _ => some (Json.obj [])) "no json here" = none ∧
    parseV2Response (fun _ => some (Json.obj [])) "\x7ba\x7d" = none ∧
    parseV2Response (fun _ => some (Json.obj [("prIntent", Json.str "")]))
      "\x7bb\x7d" = none :=
  ⟨(parseV2Response_rejects_malformed (fun _ => some (Json.obj [])) "no json here").1
      (by decide),
   (parseV2Response_rejects_malformed (fun _ => some (Json.obj [])) "\x7ba\x7d").2.2.1
      "\x7ba\x7d" (Json.obj []) (by decide) rfl (Or.inl (Or.inl rfl)),
   (parseV2Response_rejects_malformed
      (fun _ => some (Json.obj [("prIntent", Json.str "")])) "\x7bb\x7d").2.2.1
      "\x7bb\x7d" (Json.obj [("prIntent", Json.str "")]) (by decide) rfl
      (Or.inl (Or.inr ⟨Json.str "", rfl, rfl⟩))⟩

unseal Rat.mul Rat.inv Rat.add in
/-- C8 (counterexample to the unqualified enum-rejection reading).  The empty
string is outside the verdict enum, yet a response whose verdict value is the
empty string is not rejected: the falsy value is replaced by the default
`"commented"` and parsing succeeds with confidence `0.5`. -/
theorem empty_verdict_value_accepted :
    ¬ ("" ∈ validVerdicts) ∧
    (Json.get emptyVerdictJson "verdict").bind (fun w => Json.get w "verdict") =
      some (Json.str "") ∧
    parseV2Response (fun _ => some emptyVerdictJson) "\x7bx\x7d" =
      some { prIntent := "a", changeOverview := "b", keyRisks := [], checklist := [],
             prBodySuggestion := { sections := [], updates := [] },
             verdict := { verdict := VerdictKind.commented, confidence := 1/2,
                          summary := "" } } :=
  ⟨by decide, rfl, by decide⟩

end DocsMind
